import Mathlib

/-!
# alist: storage drivers, listing cache and account registry

A shallow embedding of the Go sources

* `model/account.go` (the in-memory account registry),
* `drivers/alidrive/alidrive.go`, `drivers/pikpak/pikpak.go` (paging and token refresh),
* `drivers/ftp/driver.go`, `drivers/onedrive/driver.go` (listing cache, path resolution),

followed by the properties established for them.

Conventions.  A Go `error` is a value of `base.Error`; a function returning
`(T, error)` returns `Except base.Error T`.  A value passed by pointer and
mutated (`*model.Account`) is passed in and handed back.  Every round trip to
an external party (HTTP backend, FTP server, durable store) is answered by an
oracle that sees the complete history of earlier round trips, and is appended
to that history, so that "no backend call" and "exactly one refresh" are
statements about the history.  Loops and self-recursive retries that need not
terminate take a fuel argument; `none` means the fuel ran out.
-/

set_option autoImplicit false
set_option linter.dupNamespace false

/-! ## Package `conf` -/

namespace conf

/-- Modelled from the spec: the file-kind constants of package `conf` are not
among the sources; §3 lists the kinds as distinct tags, kept here as the
consecutive integers of a Go `iota` block. -/
def UNKNOWN : Int := 0

/-- Modelled from the spec: kind tag of a directory (see `UNKNOWN`). -/
def FOLDER : Int := 1

/-- Modelled from the spec: kind tag of a video file (see `UNKNOWN`). -/
def VIDEO : Int := 3

/-- Modelled from the spec: kind tag of an image file (see `UNKNOWN`). -/
def IMAGE : Int := 6

end conf

/-! ## Package `base`: errors -/

namespace base

/-- Go `error` values.  The first four are the sentinel errors of package
`base` that the drivers return; `msg` is any other error, carrying its text
(`errors.New`, `fmt.Errorf`, errors of the HTTP and FTP libraries). -/
inductive Error where
  | ErrPathNotFound
  | ErrNotFile
  | ErrNotSupport
  | ErrNotImplement
  | msg (text : String)
  deriving DecidableEq, Repr

/-- The `base.TokenResp` record filled from a token endpoint's answer. -/
structure TokenResp where
  AccessToken : String
  RefreshToken : String
  deriving DecidableEq, Repr

end base

/-! ## Package `model` -/

namespace model

/-- The `model.Account` record.  `*time.Time` is an optional timestamp; the
field `Type` is spelled `Type_`. -/
structure Account where
  ID : Nat
  Name : String
  Index : Int
  Type_ : String
  Username : String
  Password : String
  RefreshToken : String
  AccessToken : String
  RootFolder : String
  Status : String
  CronId : Int
  DriveId : String
  Limit : Int
  OrderBy : String
  OrderDirection : String
  UpdatedAt : Option Nat
  Search : Bool
  ClientId : String
  ClientSecret : String
  Zone : String
  RedirectUri : String
  SiteUrl : String
  SiteId : String
  InternalType : String
  WebdavProxy : Bool
  Proxy : Bool
  ProxyUrl : String
  deriving DecidableEq, Repr

/-- The zero value of `Account`, what a failed Go map lookup yields. -/
def Account.zero : Account :=
  { ID := 0, Name := "", Index := 0, Type_ := "", Username := "", Password := "",
    RefreshToken := "", AccessToken := "", RootFolder := "", Status := "",
    CronId := 0, DriveId := "", Limit := 0, OrderBy := "", OrderDirection := "",
    UpdatedAt := none, Search := false, ClientId := "", ClientSecret := "",
    Zone := "", RedirectUri := "", SiteUrl := "", SiteId := "",
    InternalType := "", WebdavProxy := false, Proxy := false, ProxyUrl := "" }

/-- The unified entry `model.File`, with the fields the drivers fill (`Type`
is spelled `Type_`). -/
structure File where
  Id : String
  Name : String
  Size : Int
  Type_ : Int
  Driver : String
  UpdatedAt : Option Nat
  Thumbnail : String
  Url : String
  deriving DecidableEq, Repr

/-- The method `File.IsDir`. -/
def File.IsDir (f : File) : Bool := f.Type_ == conf.FOLDER

/-- The global `accountsMap : map[string]Account`: a finite map with unique
keys (an association list without duplicate keys). -/
abbrev AccountsMap := AList (fun _ : String => Account)

/-- Go `len(accountsMap)`. -/
def AccountsMap.len (m : AccountsMap) : Nat := m.entries.length

/-- What the durable store (`conf.DB`, an external collaborator) answers to a
write of an account: an error, or success, in which case the store has filled
in the generated fields `ID` and `UpdatedAt` of the record it was handed. -/
inductive DBResult where
  | failed (text : String)
  | stored (id : Nat) (updatedAt : Option Nat)
  deriving DecidableEq, Repr

/-- `RegisterAccount`: `accountsMap[account.Name] = account`. -/
def RegisterAccount (m : AccountsMap) (account : Account) : AccountsMap :=
  m.insert account.Name account

/-- `DeleteAccountFromMap`: `delete(accountsMap, name)`. -/
def DeleteAccountFromMap (m : AccountsMap) (name : String) : AccountsMap :=
  m.erase name

/-- `AccountsCount`. -/
def AccountsCount (m : AccountsMap) : Nat := AccountsMap.len m

/-- `SaveAccount`, given the store's answer `db` to `conf.DB.Save(account)`.
Returns the error (if any), the account as left behind the pointer, and the
registry. -/
def SaveAccount (db : DBResult) (m : AccountsMap) (account : Account) :
    Option base.Error × Account × AccountsMap :=
  match db with
  | .failed text => (some (.msg text), account, m)
  | .stored id updatedAt =>
    let account := { account with ID := id, UpdatedAt := updatedAt }
    (none, account, RegisterAccount m account)

/-- `CreateAccount`, given the store's answer `db` to `conf.DB.Create(account)`. -/
def CreateAccount (db : DBResult) (m : AccountsMap) (account : Account) :
    Option base.Error × Account × AccountsMap :=
  match db with
  | .failed text => (some (.msg text), account, m)
  | .stored id updatedAt =>
    let account := { account with ID := id, UpdatedAt := updatedAt }
    (none, account, RegisterAccount m account)

/-- `GetAccount`: with exactly one registered account the loop over the map
returns it at its first (only) iteration; otherwise a lookup by name, which
yields the zero account and `false` on a miss. -/
def GetAccount (m : AccountsMap) (name : String) : Account × Bool :=
  match (if AccountsMap.len m == 1 then m.entries.head? else none) with
  | some e => (e.2, true)
  | none =>
    match m.lookup name with
    | some account => (account, true)
    | none => (Account.zero, false)

end model

/-! ## Go standard library: `path/filepath` -/

namespace filepath

/-- Go `filepath.Split` (slash-separated paths): splits immediately after the
final separator into the directory and the file name; without a separator
the directory is empty. -/
def Split (path : String) : String × String :=
  let rev := path.toList.reverse
  (String.mk (rev.dropWhile (fun c => c != '/')).reverse,
   String.mk (rev.takeWhile (fun c => c != '/')).reverse)

/-- The scan of Go `filepath.Ext` from the end of the path: `acc` is the part
already passed. -/
def extScan : List Char → List Char → String
  | [], _ => ""
  | c :: rest, acc =>
    if c == '/' then "" else if c == '.' then String.mk ('.' :: acc) else extScan rest (c :: acc)

/-- Go `filepath.Ext`: the suffix beginning at the final dot of the final
element of the path, empty if there is no dot. -/
def Ext (path : String) : String := extScan path.toList.reverse []

end filepath

/-! ## Package `utils` -/

namespace utils

/-- The functions of package `utils` that the drivers call.  Their source is
not among the sources, so the drivers take them as a parameter: the path
normalisation `ParsePath`, the parent directory `Dir`, the variadic `Join`
and the extension-to-kind table `GetFileType`. -/
structure Funcs where
  ParsePath : String → String
  Dir : String → String
  Join : List String → String
  GetFileType : String → Int

/-- Drop the trailing slashes of a path given in reverse. -/
def dropSlashes : List Char → List Char
  | '/' :: rest => dropSlashes rest
  | l => l

/-- Modelled from the spec: `utils.ParsePath` is not among the sources; §2
calls it a pure normalisation of virtual paths.  Here: no trailing slash and
a leading slash, so the root is "/". -/
def stdParsePath (path : String) : String :=
  match (dropSlashes path.toList.reverse).reverse with
  | '/' :: rest => String.mk ('/' :: rest)
  | l => String.mk ('/' :: l)

/-- Modelled from the spec: `utils.Dir` is not among the sources; the parent
directory of a normalised path: the part before the final slash, "/" when
that slash is the leading one, the path itself when it has no slash. -/
def stdDir (path : String) : String :=
  let rev := path.toList.reverse
  match rev.dropWhile (fun c => c != '/') with
  | [] => path
  | ['/'] => "/"
  | _ :: before => String.mk before.reverse

/-- Modelled from the spec: `utils.Join` is not among the sources; §2 calls
it a pure join of a backend root and a virtual path.  Here the slashes at
both ends of every element are dropped, the non-empty elements are put one
after the other separated by one slash, and the result starts with a slash
when the first non-empty element does. -/
def stdJoin (elem : List String) : String :=
  let parts := (elem.filter (fun e => e != "")).map String.toList
  let rooted := match parts with
    | ('/' :: _) :: _ => true
    | _ => false
  let inner := (parts.map (fun l => dropSlashes (dropSlashes l.reverse).reverse)).filter
    (fun l => !l.isEmpty)
  let body := "/".intercalate (inner.map String.mk)
  if rooted then "/" ++ body else body

/-- Modelled from the spec: `utils.GetFileType` is not among the sources; §3
says the kind of a file is derived from its extension.  A small table. -/
def stdGetFileType (ext : String) : Int :=
  if ext == ".mp4" || ext == "mp4" then conf.VIDEO
  else if ext == ".jpg" || ext == "jpg" then conf.IMAGE
  else conf.UNKNOWN

/-- Modelled from the spec: the four functions above as one instance. -/
def std : Funcs :=
  { ParsePath := stdParsePath, Dir := stdDir, Join := stdJoin, GetFileType := stdGetFileType }

end utils

/-! ## Package `base`: driver configuration and listing cache -/

namespace base

/-- The static descriptor `base.DriverConfig`. -/
structure DriverConfig where
  Name : String
  OnlyProxy : Bool
  NoLink : Bool
  deriving DecidableEq, Repr

/-- A cached value (`interface{}`): a listing `[]model.File`, or a value of
some other type, for which the type assertion in `Files` fails. -/
inductive CacheVal where
  | files (listing : List model.File)
  | foreign
  deriving DecidableEq, Repr

/-- Modelled from the spec: the listing cache of package `base` is not among
the sources.  §4.3: an ephemeral store mapping (account, normalised directory
path) to the last-fetched listing, with `Get` (listing or miss), `Set` and
`Delete` and no eviction.  The account is identified by its unique name. -/
structure Cache where
  get : String → String → Option CacheVal

/-- Modelled from the spec: the empty cache. -/
def Cache.empty : Cache := { get := fun _ _ => none }

/-- Modelled from the spec: `base.GetCache(path, account)`; `none` is a miss
(a non-nil error). -/
def GetCache (c : Cache) (path : String) (account : model.Account) : Option CacheVal :=
  c.get account.Name path

/-- Modelled from the spec: `base.SetCache(path, obj, account)`. -/
def SetCache (c : Cache) (path : String) (obj : CacheVal) (account : model.Account) :
    Cache :=
  { get := fun name p => if name = account.Name ∧ p = path then some obj else c.get name p }

/-- Modelled from the spec: `base.DeleteCache(path, account)`. -/
def DeleteCache (c : Cache) (path : String) (account : model.Account) : Cache :=
  { get := fun name p => if name = account.Name ∧ p = path then none else c.get name p }

end base

/-! ## Package `alidrive` -/

namespace alidrive

/-- The error record `AliRespError` of a backend answer. -/
structure AliRespError where
  Code : String
  Message : String
  deriving DecidableEq, Repr

/-- A raw backend entry `AliFile` (`Type` is spelled `Type_`). -/
structure AliFile where
  DriveId : String
  CreatedAt : Option Nat
  FileExtension : String
  FileId : String
  Type_ : String
  Name : String
  Category : String
  ParentFileId : String
  UpdatedAt : Option Nat
  Size : Int
  Thumbnail : String
  Url : String
  deriving DecidableEq, Repr

/-- One page of a listing, `AliFiles`. -/
structure AliFiles where
  Items : List AliFile
  NextMarker : String
  deriving DecidableEq, Repr

/-- `AliDrive.FormatFile`.  `GetFileType` stands for `utils.GetFileType` and
`driverName` for `driver.Config().Name`, neither of which is among the
sources.  The kind is first set from the backend type (folder, else by
extension), then overwritten by the two category tests, in this order. -/
def FormatFile (GetFileType : String → Int) (driverName : String) (file : AliFile) :
    model.File :=
  let f : model.File :=
    { Id := file.FileId, Name := file.Name, Size := file.Size, Type_ := 0,
      UpdatedAt := file.UpdatedAt, Thumbnail := file.Thumbnail,
      Driver := driverName, Url := file.Url }
  let f := if file.Type_ == "folder" then { f with Type_ := conf.FOLDER }
    else { f with Type_ := GetFileType file.FileExtension }
  let f := if file.Category == "video" then { f with Type_ := conf.VIDEO } else f
  let f := if file.Category == "image" then { f with Type_ := conf.IMAGE } else f
  f

/-- A round trip of the AliDrive driver to the outside: the list, token,
update and batch endpoints (with the account whose fields fill the request,
`AccessToken` among them) and the durable store written by
`model.SaveAccount`. -/
inductive Call where
  | list (account : model.Account) (fileId marker : String)
  | token (account : model.Account)
  | update (account : model.Account) (fileId name : String)
  | batch (account : model.Account) (srcId dstId : String)
  | dbSave (account : model.Account)
  deriving DecidableEq, Repr

/-- What `.../v2/file/list` leaves behind: the transport error `err` (if the
request failed before any answer), the result `resp` and the error record `e`. -/
structure ListReply where
  err : Option String
  resp : AliFiles
  e : AliRespError
  deriving DecidableEq, Repr

/-- What the token endpoint leaves behind. -/
structure TokenReply where
  err : Option String
  resp : base.TokenResp
  e : AliRespError
  deriving DecidableEq, Repr

/-- What `.../v3/file/update` leaves behind: `name` is the entry `resp["name"]`
of the answered JSON object when it is a string, `text` the object printed
with `%+v`. -/
structure UpdateReply where
  err : Option String
  name : Option String
  text : String
  e : AliRespError
  deriving DecidableEq, Repr

/-- What `.../v3/batch` leaves behind: `body` is `res.String()`. -/
structure BatchReply where
  err : Option String
  body : String
  e : AliRespError
  deriving DecidableEq, Repr

/-- The outside world of the AliDrive driver: each answer may depend on the
history of all earlier round trips and on the request. -/
structure Backend where
  list : List Call → model.Account → String → String → ListReply
  token : List Call → model.Account → TokenReply
  update : List Call → model.Account → String → String → UpdateReply
  batch : List Call → model.Account → String → String → BatchReply
  dbSave : List Call → model.Account → model.DBResult

/-- The state the driver works on: the history of round trips (oldest first)
and the account registry. -/
structure St where
  hist : List Call
  registry : model.AccountsMap

/-- Record a round trip. -/
def St.push (st : St) (c : Call) : St := { st with hist := st.hist ++ [c] }

/-- The call `model.SaveAccount(account)` made by the driver. -/
def saveAccount (be : Backend) (account : model.Account) (st : St) :
    Option base.Error × model.Account × St :=
  let r := model.SaveAccount (be.dbSave st.hist account) st.registry account
  (r.1, r.2.1, { hist := st.hist ++ [Call.dbSave account], registry := r.2.2 })

/-- `AliDrive.RefreshToken`. -/
def RefreshToken (be : Backend) (account : model.Account) (st : St) :
    Option base.Error × model.Account × St :=
  let r := be.token st.hist account
  let st := st.push (.token account)
  match r.err with
  | some text => (some (.msg text), { account with Status := text }, st)
  | none =>
    if r.e.Code != "" then
      (some (.msg ("failed to refresh token: " ++ r.e.Message)),
        { account with Status := r.e.Message }, st)
    else
      (none, { account with Status := "work", RefreshToken := r.resp.RefreshToken,
                            AccessToken := r.resp.AccessToken }, st)

/-- The loop of `AliDrive.GetFiles`, entered with the current `marker` and the
accumulated `res`.  The recursive call `driver.GetFiles(fileId, account)` after
a refresh is the loop entered afresh with `marker = "first"` and `res = []`. -/
def GetFilesLoop (be : Backend) (fileId : String) :
    Nat → String → List AliFile → model.Account → St →
      Option (Except base.Error (List AliFile) × model.Account × St)
  | 0, _, _, _, _ => none
  | fuel + 1, marker, res, account, st =>
    if marker != "" then
      let marker := if marker == "first" then "" else marker
      let r := be.list st.hist account fileId marker
      let st := st.push (.list account fileId marker)
      match r.err with
      | some text => some (.error (.msg text), account, st)
      | none =>
        if r.e.Code != "" then
          if r.e.Code == "AccessTokenInvalid" then
            match RefreshToken be account st with
            | (some err, account, st) => some (.error err, account, st)
            | (none, account, st) =>
              let s := saveAccount be account st
              GetFilesLoop be fileId fuel "first" [] s.2.1 s.2.2
          else some (.error (.msg r.e.Message), account, st)
        else GetFilesLoop be fileId fuel r.resp.NextMarker (res ++ r.resp.Items) account st
    else some (.ok res, account, st)

/-- `AliDrive.GetFiles`. -/
def GetFiles (be : Backend) (fuel : Nat) (fileId : String) (account : model.Account)
    (st : St) : Option (Except base.Error (List AliFile) × model.Account × St) :=
  GetFilesLoop be fileId fuel "first" [] account st

/-- `AliDrive.Rename`; the result is the returned error, `none` for `nil`. -/
def Rename (be : Backend) :
    Nat → String → String → model.Account → St →
      Option (Option base.Error × model.Account × St)
  | 0, _, _, _, _ => none
  | fuel + 1, fileId, name, account, st =>
    let r := be.update st.hist account fileId name
    let st := st.push (.update account fileId name)
    match r.err with
    | some text => some (some (.msg text), account, st)
    | none =>
      if r.e.Code != "" then
        if r.e.Code == "AccessTokenInvalid" then
          match RefreshToken be account st with
          | (some err, account, st) => some (some err, account, st)
          | (none, account, st) =>
            let s := saveAccount be account st
            Rename be fuel fileId name s.2.1 s.2.2
        else some (some (.msg r.e.Message), account, st)
      else if r.name == some name then some (none, account, st)
      else some (some (.msg r.text), account, st)

/-- `AliDrive.Batch`; the result is the returned error, `none` for `nil`. -/
def Batch (be : Backend) :
    Nat → String → String → model.Account → St →
      Option (Option base.Error × model.Account × St)
  | 0, _, _, _, _ => none
  | fuel + 1, srcId, dstId, account, st =>
    let r := be.batch st.hist account srcId dstId
    let st := st.push (.batch account srcId dstId)
    match r.err with
    | some text => some (some (.msg text), account, st)
    | none =>
      if r.e.Code != "" then
        if r.e.Code == "AccessTokenInvalid" then
          match RefreshToken be account st with
          | (some err, account, st) => some (some err, account, st)
          | (none, account, st) =>
            let s := saveAccount be account st
            Batch be fuel srcId dstId s.2.1 s.2.2
        else some (some (.msg r.e.Message), account, st)
      else if decide ("\"status\":200".toList <:+: r.body.toList) then
        some (none, account, st)
      else some (some (.msg r.body), account, st)

end alidrive

/-! ## Package `pikpak` -/

namespace pikpak

/-- Modelled from the spec: the request-method tags of package `base` are
integer constants that are not among the sources; `PikPak.Request` names
`base.Get`, `base.Post` and `base.Patch` and treats every other value alike. -/
inductive Method where
  | Get
  | Post
  | Patch
  | other (code : Int)
  deriving DecidableEq, Repr

/-- The error record `RespErr` of a backend answer. -/
structure RespErr where
  ErrorCode : Int
  Error : String
  deriving DecidableEq, Repr

/-- A raw backend entry `File`. -/
structure File where
  Id : String
  Kind : String
  Name : String
  ModifiedTime : Option Nat
  Size : String
  ThumbnailLink : String
  WebContentLink : String
  deriving DecidableEq, Repr

/-- One page of a listing, `Files`. -/
structure Files where
  Files : List File
  NextPageToken : String
  deriving DecidableEq, Repr

/-- The zero value of `Files` (`var resp Files`). -/
def Files.zero : pikpak.Files := { Files := [], NextPageToken := "" }

/-- A round trip of the PikPak driver to the outside. -/
inductive Call where
  | signin (account : model.Account)
  | token (account : model.Account)
  | request (account : model.Account) (url : String) (method : Method)
      (query : Option (List (String × String))) (data : Option String)
  | dbSave (account : model.Account)
  deriving DecidableEq, Repr

/-- What the sign-in and token endpoints leave behind: the transport error,
the error record, and the strings that `jsoniter.Get(data, "refresh_token")`
and `jsoniter.Get(data, "access_token")` read from the body. -/
structure AuthReply where
  err : Option String
  e : RespErr
  refresh_token : String
  access_token : String
  deriving DecidableEq, Repr

/-- What a drive request leaves behind: the transport error, the error
record, the body, and the value written into the caller's `resp` (`none`
when the answer was not decoded into it). -/
structure Reply where
  err : Option String
  e : RespErr
  body : String
  result : Option Files
  deriving DecidableEq, Repr

/-- The outside world of the PikPak driver. -/
structure Backend where
  signin : List Call → model.Account → AuthReply
  token : List Call → model.Account → AuthReply
  request : List Call → model.Account → String → Method →
    Option (List (String × String)) → Option String → Reply
  dbSave : List Call → model.Account → model.DBResult

/-- The state the driver works on. -/
structure St where
  hist : List Call
  registry : model.AccountsMap

/-- Record a round trip. -/
def St.push (st : St) (c : Call) : St := { st with hist := st.hist ++ [c] }

/-- The call `model.SaveAccount(account)` made by the driver. -/
def saveAccount (be : Backend) (account : model.Account) (st : St) :
    Option base.Error × model.Account × St :=
  let r := model.SaveAccount (be.dbSave st.hist account) st.registry account
  (r.1, r.2.1, { hist := st.hist ++ [Call.dbSave account], registry := r.2.2 })

/-- `PikPak.Login`. -/
def Login (be : Backend) (account : model.Account) (st : St) :
    Option base.Error × model.Account × St :=
  let r := be.signin st.hist account
  let st := st.push (.signin account)
  match r.err with
  | some text => (some (.msg text), { account with Status := text }, st)
  | none =>
    if r.e.ErrorCode != 0 then
      (some (.msg r.e.Error), { account with Status := r.e.Error }, st)
    else
      (none, { account with Status := "work", RefreshToken := r.refresh_token,
                            AccessToken := r.access_token }, st)

/-- `PikPak.RefreshToken`.  Only the error code 4126 leads to `Login`; after
any other answer the status is set to "work" and the tokens are read from
the body. -/
def RefreshToken (be : Backend) (account : model.Account) (st : St) :
    Option base.Error × model.Account × St :=
  let r := be.token st.hist account
  let st := st.push (.token account)
  match r.err with
  | some text => (some (.msg text), { account with Status := text }, st)
  | none =>
    if r.e.ErrorCode != 0 && r.e.ErrorCode == 4126 then
      Login be account st
    else
      (none, { account with Status := "work", RefreshToken := r.refresh_token,
                            AccessToken := r.access_token }, st)

/-- The caller's result variable after a round trip: overwritten with the
decoded answer when the pointer was set (`SetResult`) and an answer was
decoded, left alone otherwise. -/
def fillResp (resp result : Option Files) : Option Files :=
  match resp, result with
  | some _, some v => some v
  | resp, _ => resp

/-- `PikPak.Request`.  `resp` is the caller's result variable (`none` for a
`nil` pointer); it is handed back as the round trips left it. -/
def Request (be : Backend) :
    Nat → String → Method → Option (List (String × String)) → Option String →
      Option Files → model.Account → St →
      Option (Except base.Error String × Option Files × model.Account × St)
  | 0, _, _, _, _, _, _, _ => none
  | fuel + 1, url, method, query, data, resp, account, st =>
    match method with
    | .other _ => some (.error .ErrNotSupport, resp, account, st)
    | _ =>
      let r := be.request st.hist account url method query data
      let st := st.push (.request account url method query data)
      let resp := fillResp resp r.result
      match r.err with
      | some text => some (.error (.msg text), resp, account, st)
      | none =>
        if r.e.ErrorCode != 0 then
          if r.e.ErrorCode == 16 then
            match RefreshToken be account st with
            | (some err, account, st) => some (.error err, resp, account, st)
            | (none, account, st) =>
              let s := saveAccount be account st
              Request be fuel url method query data resp s.2.1 s.2.2
          else some (.error (.msg r.e.Error), resp, account, st)
        else some (.ok r.body, resp, account, st)

/-- The query of the listing request built in `PikPak.GetFiles`. -/
def listQuery (id pageToken : String) : List (String × String) :=
  [("parent_id", id), ("thumbnail_size", "SIZE_LARGE"), ("with_audit", "true"),
   ("limit", "100"),
   ("filters", "\x7b\"phase\":\x7b\"eq\":\"PHASE_TYPE_COMPLETE\"\x7d,\"trashed\":\x7b\"eq\":false\x7d\x7d"),
   ("page_token", pageToken)]

/-- The URL of the listing request. -/
def filesUrl : String := "https://api-drive.mypikpak.com/drive/v1/files"

/-- The loop of `PikPak.GetFiles`, entered with the current `pageToken` and the
accumulated `res`; every `Request` gets the fuel that is left. -/
def GetFilesLoop (be : Backend) (id : String) :
    Nat → String → List File → model.Account → St →
      Option (Except base.Error (List File) × model.Account × St)
  | 0, _, _, _, _ => none
  | fuel + 1, pageToken, res, account, st =>
    if pageToken != "" then
      let pageToken := if pageToken == "first" then "" else pageToken
      match Request be fuel filesUrl .Get (some (listQuery id pageToken)) none
          (some Files.zero) account st with
      | none => none
      | some (.error err, _, account, st) => some (.error err, account, st)
      | some (.ok _, resp, account, st) =>
        let resp := resp.getD Files.zero
        GetFilesLoop be id fuel resp.NextPageToken (res ++ resp.Files) account st
    else some (.ok res, account, st)

/-- `PikPak.GetFiles`. -/
def GetFiles (be : Backend) (fuel : Nat) (id : String) (account : model.Account)
    (st : St) : Option (Except base.Error (List File) × model.Account × St) :=
  GetFilesLoop be id fuel "first" [] account st

end pikpak

/-! ## Package `ftp` -/

namespace ftp

/-- The kind of a server entry (`ftp.EntryType` of the FTP library). -/
inductive EntryType where
  | EntryTypeFile
  | EntryTypeFolder
  | EntryTypeLink
  deriving DecidableEq, Repr

/-- A server entry (`ftp.Entry` of the FTP library); `Size` is a `uint64`. -/
structure Entry where
  Name : String
  Target : String
  Type_ : EntryType
  Size : Nat
  Time : Nat
  deriving DecidableEq, Repr

/-- An upload, `model.FileStream`. -/
structure FileStream where
  ParentPath : String
  Name : String
  Size : Int
  MIMEType : String
  deriving DecidableEq, Repr

/-- A round trip to the FTP server: `driver.Login` (dial and log in), the
commands on the connection, and the deferred `conn.Quit()`. -/
inductive Call where
  | login (account : model.Account)
  | list (path : String)
  | makeDir (path : String)
  | rename (src dst : String)
  | delete (path : String)
  | stor (path : String) (file : FileStream)
  | quit
  deriving DecidableEq, Repr

/-- The FTP server: each answer may depend on the history of all earlier
round trips and on the command.  `none` is success (a nil error). -/
structure Server where
  login : List Call → model.Account → Option base.Error
  list : List Call → String → Except base.Error (List Entry)
  makeDir : List Call → String → Option base.Error
  rename : List Call → String → String → Option base.Error
  delete : List Call → String → Option base.Error
  stor : List Call → String → FileStream → Option base.Error

/-- The state the driver works on: the history of round trips (oldest first)
and the listing cache. -/
structure St where
  hist : List Call
  cache : base.Cache

/-- Record a round trip. -/
def St.push (st : St) (c : Call) : St := { st with hist := st.hist ++ [c] }

/-- `FTP.Config`. -/
def Config : base.DriverConfig := { Name := "FTP", OnlyProxy := true, NoLink := true }

/-- The Go conversion `int64(x)` of a `uint64`. -/
def toInt64 (n : Nat) : Int :=
  if n % 2 ^ 64 < 2 ^ 63 then ((n % 2 ^ 64 : Nat) : Int)
  else ((n % 2 ^ 64 : Nat) : Int) - 2 ^ 64

/-- The body of the loop of `FTP.Files`: the unified entry made of a server
entry. -/
def toFile (U : utils.Funcs) (entry : Entry) : model.File :=
  { Id := "", Name := entry.Name, Size := toInt64 entry.Size,
    UpdatedAt := some entry.Time, Driver := Config.Name, Thumbnail := "", Url := "",
    Type_ := if entry.Type_ = EntryType.EntryTypeFolder then conf.FOLDER
             else U.GetFileType (filepath.Ext entry.Name) }

/-- `FTP.Files`. -/
def Files (U : utils.Funcs) (srv : Server) (path : String) (account : model.Account)
    (st : St) : Except base.Error (List model.File) × St :=
  let path := U.ParsePath path
  match base.GetCache st.cache path account with
  | some cache =>
    let files := match cache with
      | .files listing => listing
      | .foreign => []
    (.ok files, st)
  | none =>
    let realPath := U.Join [account.RootFolder, path]
    match srv.login st.hist account with
    | some err => (.error err, st.push (.login account))
    | none =>
      let st := st.push (.login account)
      match srv.list st.hist realPath with
      | .error err => (.error err, (st.push (.list realPath)).push .quit)
      | .ok entries =>
        let st := st.push (.list realPath)
        let res := entries.map (toFile U)
        let st := if res.length > 0 then
            { st with cache := base.SetCache st.cache path (.files res) account }
          else st
        (.ok res, st.push .quit)

/-- `FTP.File`. -/
def File (U : utils.Funcs) (srv : Server) (path : String) (account : model.Account)
    (st : St) : Except base.Error model.File × St :=
  let path := U.ParsePath path
  if path == "/" then
    (.ok { Id := account.RootFolder, Name := account.Name, Size := 0,
           Type_ := conf.FOLDER, Driver := Config.Name, UpdatedAt := account.UpdatedAt,
           Thumbnail := "", Url := "" }, st)
  else
    let dir := (filepath.Split path).1
    let name := (filepath.Split path).2
    match Files U srv dir account st with
    | (.error err, st) => (.error err, st)
    | (.ok files, st) =>
      match files.find? (fun file => file.Name == name) with
      | some file => (.ok file, st)
      | none => (.error .ErrPathNotFound, st)

/-- `FTP.MakeDir`; the result is the returned error, `none` for `nil`. -/
def MakeDir (U : utils.Funcs) (srv : Server) (path : String) (account : model.Account)
    (st : St) : Option base.Error × St :=
  let path := U.ParsePath path
  let realPath := U.Join [account.RootFolder, path]
  match srv.login st.hist account with
  | some err => (some err, st.push (.login account))
  | none =>
    let st := st.push (.login account)
    let err := srv.makeDir st.hist realPath
    let st := st.push (.makeDir realPath)
    let st := if err == none then
        { st with cache := base.DeleteCache st.cache (U.Dir path) account }
      else st
    (err, st.push .quit)

/-- `FTP.Move`.  The cache entries are deleted when `err != nil`. -/
def Move (U : utils.Funcs) (srv : Server) (src dst : String) (account : model.Account)
    (st : St) : Option base.Error × St :=
  let realSrc := U.Join [account.RootFolder, src]
  let realDst := U.Join [account.RootFolder, dst]
  match srv.login st.hist account with
  | some err => (some err, st.push (.login account))
  | none =>
    let st := st.push (.login account)
    let err := srv.rename st.hist realSrc realDst
    let st := st.push (.rename realSrc realDst)
    let st := if err != none then
        let c := base.DeleteCache st.cache (U.Dir src) account
        { st with cache := base.DeleteCache c (U.Dir dst) account }
      else st
    (err, st.push .quit)

/-- `FTP.Copy`. -/
def Copy (_src _dst : String) (_account : model.Account) (st : St) :
    Option base.Error × St :=
  (some .ErrNotSupport, st)

/-- `FTP.Delete`. -/
def Delete (U : utils.Funcs) (srv : Server) (path : String) (account : model.Account)
    (st : St) : Option base.Error × St :=
  let path := U.ParsePath path
  let realPath := U.Join [account.RootFolder, path]
  match srv.login st.hist account with
  | some err => (some err, st.push (.login account))
  | none =>
    let st := st.push (.login account)
    let err := srv.delete st.hist realPath
    let st := st.push (.delete realPath)
    let st := if err == none then
        { st with cache := base.DeleteCache st.cache (U.Dir path) account }
      else st
    (err, st.push .quit)

/-- `FTP.Upload`.  The cache entry deleted on success is the one of
`utils.Dir(file.ParentPath)`. -/
def Upload (U : utils.Funcs) (srv : Server) (file : FileStream) (account : model.Account)
    (st : St) : Option base.Error × St :=
  let realPath := U.Join [account.RootFolder, file.ParentPath, file.Name]
  match srv.login st.hist account with
  | some err => (some err, st.push (.login account))
  | none =>
    let st := st.push (.login account)
    let err := srv.stor st.hist realPath file
    let st := st.push (.stor realPath file)
    let st := if err == none then
        { st with cache := base.DeleteCache st.cache (U.Dir file.ParentPath) account }
      else st
    (err, st.push .quit)

end ftp

/-! ## Package `onedrive` -/

namespace onedrive

/-- A round trip to the Onedrive backend: the fetch of a raw listing. -/
inductive Call where
  | getFiles (account : model.Account) (path : String)
  deriving DecidableEq, Repr

/-- Modelled from the spec: `Onedrive.GetFiles` and `Onedrive.FormatFile` are
defined in a file that is not among the sources, as is the raw entry type
(here `ρ`).  §4.1: a listing that is not in the cache is "fetched from the
backend (draining all pages)" and each raw entry is turned into a unified
entry.  `GetFiles` is answered by the backend with the complete raw listing
or an error, and may depend on the history of earlier round trips. -/
structure Rest (ρ : Type) where
  GetFiles : List Call → model.Account → String → Except base.Error (List ρ)
  FormatFile : ρ → model.File

/-- The state the driver works on. -/
structure St where
  hist : List Call
  cache : base.Cache

/-- Record a round trip. -/
def St.push (st : St) (c : Call) : St := { st with hist := st.hist ++ [c] }

/-- `Onedrive.Config`. -/
def Config : base.DriverConfig := { Name := "Onedrive", OnlyProxy := false, NoLink := false }

/-- `Onedrive.Files`. -/
def Files {ρ : Type} (U : utils.Funcs) (R : Rest ρ) (path : String)
    (account : model.Account) (st : St) : Except base.Error (List model.File) × St :=
  let path := U.ParsePath path
  match base.GetCache st.cache path account with
  | some cache =>
    let files := match cache with
      | .files listing => listing
      | .foreign => []
    (.ok files, st)
  | none =>
    match R.GetFiles st.hist account path with
    | .error err => (.error err, st.push (.getFiles account path))
    | .ok rawFiles =>
      let st := st.push (.getFiles account path)
      let files := rawFiles.map R.FormatFile
      let st := if files.length > 0 then
          { st with cache := base.SetCache st.cache path (.files files) account }
        else st
      (.ok files, st)

/-- `Onedrive.File`. -/
def File {ρ : Type} (U : utils.Funcs) (R : Rest ρ) (path : String)
    (account : model.Account) (st : St) : Except base.Error model.File × St :=
  let path := U.ParsePath path
  if path == "/" then
    (.ok { Id := account.RootFolder, Name := account.Name, Size := 0,
           Type_ := conf.FOLDER, Driver := Config.Name, UpdatedAt := account.UpdatedAt,
           Thumbnail := "", Url := "" }, st)
  else
    let dir := (filepath.Split path).1
    let name := (filepath.Split path).2
    match Files U R dir account st with
    | (.error err, st) => (.error err, st)
    | (.ok files, st) =>
      match files.find? (fun file => file.Name == name) with
      | some file => (.ok file, st)
      | none => (.error .ErrPathNotFound, st)

end onedrive

/-! ## Paged listings -/

namespace base

/-- The pages `(P1, c1), ..., (Pn, cn)` with `n ≥ 1` are chained from the
cursor `c`: the request with cursor `c` is served `P1` and the continuation
cursor `c1`, the request with `c1` is served `P2` and `c2`, and so on; the
cursors `c1 .. c(n-1)` are non-empty and `cn` is empty.  `serves c P next`
says what the backend answers to the request with cursor `c`. -/
def Chained {α : Type} (serves : String → List α → String → Prop) :
    String → List (List α × String) → Prop
  | _, [] => False
  | c, [p] => serves c p.1 p.2 ∧ p.2 = ""
  | c, p :: q :: rest => serves c p.1 p.2 ∧ p.2 ≠ "" ∧ Chained serves p.2 (q :: rest)

/-- The concatenation `P1 ++ P2 ++ ... ++ Pn` of the pages. -/
def concatPages {α : Type} (pages : List (List α × String)) : List α :=
  (pages.map Prod.fst).flatten

end base

namespace alidrive

/-- The backend answers the list request for `fileId` with cursor `c` without
error, with the page `P` and the continuation cursor `next`, whatever the
history and the account. -/
def Serves (be : Backend) (fileId : String) (c : String) (P : List AliFile)
    (next : String) : Prop :=
  ∀ hist account, (be.list hist account fileId c).err = none ∧
    (be.list hist account fileId c).e.Code = "" ∧
    (be.list hist account fileId c).resp = { Items := P, NextMarker := next }

end alidrive

namespace pikpak

/-- The backend answers the listing request for `id` with page token `c`
without error, with the page `P` and the continuation token `next`, whatever
the history and the account. -/
def Serves (be : Backend) (id : String) (c : String) (P : List File)
    (next : String) : Prop :=
  ∀ hist account,
    (be.request hist account filesUrl .Get (some (listQuery id c)) none).err = none ∧
    (be.request hist account filesUrl .Get (some (listQuery id c)) none).e.ErrorCode = 0 ∧
    (be.request hist account filesUrl .Get (some (listQuery id c)) none).result
      = some { Files := P, NextPageToken := next }

end pikpak

/-! ## Sample backends -/

namespace alidrive

/-- A raw file with the given id and name, all else zero. -/
def sampleFile (id name : String) : AliFile :=
  { DriveId := "", CreatedAt := none, FileExtension := "mp4", FileId := id,
    Type_ := "file", Name := name, Category := "video", ParentFileId := "root",
    UpdatedAt := none, Size := 0, Thumbnail := "", Url := "" }

/-- A backend with two pages whose continuation cursor after the first page
is the string "first": the empty cursor is served `[A.mp4]` and the cursor
"first", the cursor "first" is served `[B.mp4]` and the empty cursor.  It
never reports an error. -/
def firstCursorBackend : Backend where
  list := fun _ _ _ marker =>
    if marker == "" then
      { err := none, resp := { Items := [sampleFile "a" "A.mp4"], NextMarker := "first" },
        e := { Code := "", Message := "" } }
    else if marker == "first" then
      { err := none, resp := { Items := [sampleFile "b" "B.mp4"], NextMarker := "" },
        e := { Code := "", Message := "" } }
    else { err := none, resp := { Items := [], NextMarker := "" },
           e := { Code := "", Message := "" } }
  token := fun _ _ => { err := none, resp := { AccessToken := "", RefreshToken := "" },
                        e := { Code := "", Message := "" } }
  update := fun _ _ _ name => { err := none, name := some name, text := "",
                                e := { Code := "", Message := "" } }
  batch := fun _ _ _ _ => { err := none, body := "\"status\":200",
                            e := { Code := "", Message := "" } }
  dbSave := fun _ _ => .stored 1 none

/-- A backend with two pages chained by the cursor "tok1", as in the scenario
of the spec. -/
def twoPageBackend : Backend :=
  { firstCursorBackend with
    list := fun _ _ _ marker =>
      if marker == "" then
        { err := none, resp := { Items := [sampleFile "a" "A.mp4"], NextMarker := "tok1" },
          e := { Code := "", Message := "" } }
      else if marker == "tok1" then
        { err := none, resp := { Items := [sampleFile "b" "B.mp4"], NextMarker := "" },
          e := { Code := "", Message := "" } }
      else { err := none, resp := { Items := [], NextMarker := "" },
             e := { Code := "", Message := "" } } }

/-- The empty starting state. -/
def St.init : St := { hist := [], registry := ∅ }

end alidrive

namespace pikpak

/-- A raw file with the given id and name. -/
def sampleFile (id name : String) : File :=
  { Id := id, Kind := "drive#file", Name := name, ModifiedTime := none, Size := "0",
    ThumbnailLink := "", WebContentLink := "" }

/-- The value of the query parameter `page_token`, if the query has one. -/
def pageTokenOf (query : Option (List (String × String))) : Option String :=
  match query with
  | none => none
  | some q => (q.find? (fun kv => kv.1 == "page_token")).map Prod.snd

/-- A backend with two pages whose continuation token after the first page is
the string "first"; it never reports an error. -/
def firstCursorBackend : Backend where
  signin := fun _ _ => { err := none, e := { ErrorCode := 0, Error := "" },
                         refresh_token := "r", access_token := "a" }
  token := fun _ _ => { err := none, e := { ErrorCode := 0, Error := "" },
                        refresh_token := "r", access_token := "a" }
  request := fun _ _ _ _ query _ =>
    if pageTokenOf query == some "" then
      { err := none, e := { ErrorCode := 0, Error := "" }, body := "",
        result := some { Files := [sampleFile "a" "A.mp4"], NextPageToken := "first" } }
    else if pageTokenOf query == some "first" then
      { err := none, e := { ErrorCode := 0, Error := "" }, body := "",
        result := some { Files := [sampleFile "b" "B.mp4"], NextPageToken := "" } }
    else { err := none, e := { ErrorCode := 0, Error := "" }, body := "", result := none }
  dbSave := fun _ _ => .stored 1 none

/-- A backend with two pages chained by the token "tok1". -/
def twoPageBackend : Backend :=
  { firstCursorBackend with
    request := fun _ _ _ _ query _ =>
      if pageTokenOf query == some "" then
        { err := none, e := { ErrorCode := 0, Error := "" }, body := "",
          result := some { Files := [sampleFile "a" "A.mp4"], NextPageToken := "tok1" } }
      else if pageTokenOf query == some "tok1" then
        { err := none, e := { ErrorCode := 0, Error := "" }, body := "",
          result := some { Files := [sampleFile "b" "B.mp4"], NextPageToken := "" } }
      else { err := none, e := { ErrorCode := 0, Error := "" }, body := "", result := none } }

/-- The empty starting state. -/
def St.init : St := { hist := [], registry := ∅ }


/-- Whether a round trip is a call of the token endpoint, that is, one
invocation of `RefreshToken`. -/
def Call.isToken : Call → Bool
  | .token _ => true
  | _ => false

/-- Whether a round trip is a drive request issued by `Request`. -/
def Call.isRequest : Call → Bool
  | .request _ _ _ _ _ => true
  | _ => false

/-- A backend that answers the first two drive requests with the
token-invalid code 16 and every later one with success; every refresh
succeeds and hands out new tokens. -/
def twiceInvalidBackend : Backend where
  signin := fun _ _ => { err := none, e := { ErrorCode := 0, Error := "" },
                         refresh_token := "r", access_token := "a" }
  token := fun _ _ => { err := none, e := { ErrorCode := 0, Error := "" },
                        refresh_token := "r2", access_token := "a2" }
  request := fun hist _ _ _ _ _ =>
    if hist.countP Call.isRequest < 2 then
      { err := none, e := { ErrorCode := 16, Error := "token invalid" }, body := "",
        result := none }
    else { err := none, e := { ErrorCode := 0, Error := "" }, body := "done",
           result := none }
  dbSave := fun _ _ => .stored 1 none

end pikpak

namespace alidrive

/-- Whether a round trip is a call of the token endpoint, that is, one
invocation of `RefreshToken`. -/
def Call.isToken : Call → Bool
  | .token _ => true
  | _ => false

/-- A backend that answers list, update and batch requests with
`AccessTokenInvalid` as long as no token has been refreshed, and with success
afterwards; the refresh succeeds. -/
def onceInvalidBackend : Backend where
  list := fun hist _ _ _ =>
    if hist.any Call.isToken then
      { err := none, resp := { Items := [sampleFile "a" "A.mp4"], NextMarker := "" },
        e := { Code := "", Message := "" } }
    else { err := none, resp := { Items := [], NextMarker := "" },
           e := { Code := "AccessTokenInvalid", Message := "token expired" } }
  token := fun _ _ => { err := none, resp := { AccessToken := "a2", RefreshToken := "r2" },
                        e := { Code := "", Message := "" } }
  update := fun hist _ _ name =>
    if hist.any Call.isToken then
      { err := none, name := some name, text := "", e := { Code := "", Message := "" } }
    else { err := none, name := none, text := "",
           e := { Code := "AccessTokenInvalid", Message := "token expired" } }
  batch := fun hist _ _ _ =>
    if hist.any Call.isToken then
      { err := none, body := "\"status\":200", e := { Code := "", Message := "" } }
    else { err := none, body := "",
           e := { Code := "AccessTokenInvalid", Message := "token expired" } }
  dbSave := fun _ _ => .stored 1 none

end alidrive

namespace drivers

/-- The zero account after a successful refresh by the sample backends. -/
def refreshedAccount : model.Account :=
  { model.Account.zero with Status := "work", RefreshToken := "r2", AccessToken := "a2" }

end drivers

/-! ## Sample servers and states for the listing drivers -/

namespace drivers

/-- An account named "disk" rooted at "/". -/
def diskAccount : model.Account :=
  { model.Account.zero with Name := "disk", RootFolder := "/" }

/-- The unified entry of a video file with the given name. -/
def videoFile (name : String) : model.File :=
  { Id := "", Name := name, Size := 0, Type_ := conf.VIDEO, Driver := "FTP",
    UpdatedAt := some 0, Thumbnail := "", Url := "" }

/-- A server entry of a file with the given name. -/
def videoEntry (name : String) : ftp.Entry :=
  { Name := name, Target := "", Type_ := .EntryTypeFile, Size := 0, Time := 0 }

/-- Whether a round trip is a delete command. -/
def isDelete : ftp.Call → Bool
  | .delete _ => true
  | _ => false

/-- An FTP server that accepts every command; it lists `A.mp4` and `B.mp4`
until something has been deleted, and `B.mp4` alone afterwards. -/
def okServer : ftp.Server where
  login := fun _ _ => none
  list := fun hist _ =>
    if hist.any isDelete then .ok [videoEntry "B.mp4"]
    else .ok [videoEntry "A.mp4", videoEntry "B.mp4"]
  makeDir := fun _ _ => none
  rename := fun _ _ _ => none
  delete := fun _ _ => none
  stor := fun _ _ _ => none

/-- An FTP server that refuses the login. -/
def downServer : ftp.Server :=
  { okServer with login := fun _ _ => some (.msg "530 Login incorrect") }

/-- An FTP state with nothing cached and no round trip made. -/
def emptyFtp : ftp.St := { hist := [], cache := base.Cache.empty }

/-- An FTP state whose cache holds the listing `[A.mp4]` of "/videos" for
`diskAccount`. -/
def cachedFtp : ftp.St :=
  { hist := [],
    cache := base.SetCache base.Cache.empty "/videos" (.files [videoFile "A.mp4"])
      diskAccount }

/-- The missing parts of the Onedrive driver for the samples: raw entries are
names, the backend lists `A.mp4` and `B.mp4`. -/
def okRest : onedrive.Rest String :=
  { GetFiles := fun _ _ _ => .ok ["A.mp4", "B.mp4"], FormatFile := videoFile }

/-- An Onedrive state with nothing cached. -/
def emptyOnedrive : onedrive.St := { hist := [], cache := base.Cache.empty }

/-- An Onedrive state whose cache holds the listing `[A.mp4]` of "/videos". -/
def cachedOnedrive : onedrive.St :=
  { hist := [],
    cache := base.SetCache base.Cache.empty "/videos" (.files [videoFile "A.mp4"])
      diskAccount }

end drivers

/-! ## Sample backends for the token refresh -/

namespace pikpak

/-- A backend whose token endpoint answers every refresh with the error code
4126 (refresh token no longer valid) and whose sign-in succeeds. -/
def expiredRefreshBackend : Backend :=
  { twiceInvalidBackend with
    token := fun _ _ => { err := none, e := { ErrorCode := 4126, Error := "invalid_grant" },
                          refresh_token := "", access_token := "" } }

/-- A backend whose token endpoint answers every refresh with the error code
4122 and the text "too many requests". -/
def refusingBackend : Backend :=
  { twiceInvalidBackend with
    token := fun _ _ => { err := none,
                          e := { ErrorCode := 4122, Error := "too many requests" },
                          refresh_token := "", access_token := "" } }

/-- A backend whose token endpoint answers with the error code 4126 and whose
sign-in is refused with the error code 4022 and the text "wrong password". -/
def lockedOutBackend : Backend :=
  { expiredRefreshBackend with
    signin := fun _ _ => { err := none, e := { ErrorCode := 4022, Error := "wrong password" },
                           refresh_token := "", access_token := "" } }

end pikpak

namespace alidrive

/-- A backend whose token endpoint answers every refresh with the error code
`InvalidParameter.RefreshToken` and the text "refresh token expired". -/
def refusingBackend : Backend :=
  { onceInvalidBackend with
    token := fun _ _ => { err := none, resp := { AccessToken := "", RefreshToken := "" },
                          e := { Code := "InvalidParameter.RefreshToken",
                                 Message := "refresh token expired" } } }

end alidrive

/-! ## The scheduler and `model.DeleteAccount` -/

namespace conf

/-- The scheduler `conf.Cron` (an external collaborator): the scheduled
entries, each with its entry id and the name of the account whose refresh job
it runs. -/
abbrev Cron := List (Int × String)

/-- `conf.Cron.Remove(id)`: the entries with that id are cancelled. -/
def Cron.Remove (c : Cron) (id : Int) : Cron := c.filter (fun e => e.1 != id)

end conf

namespace model

/-- What the durable store answers to `conf.DB.First(&account)` for a record
id: an error, or the record found. -/
inductive DBFind where
  | failed (text : String)
  | found (record : Account)
  deriving DecidableEq, Repr

/-- `DeleteAccount`, given the store's answers `dbFirst id` to
`conf.DB.First(&account)` and `dbDelete record` to `conf.DB.Delete(&account)`
(`none` for success).  Returns the error (if any), the registry and the
scheduler.  The scheduled refresh is cancelled before the store is asked to
delete. -/
def DeleteAccount (dbFirst : Nat → DBFind) (dbDelete : Account → Option String)
    (m : AccountsMap) (cron : conf.Cron) (id : Nat) :
    Option base.Error × AccountsMap × conf.Cron :=
  match dbFirst id with
  | .failed text => (some (.msg text), m, cron)
  | .found account =>
    let name := account.Name
    let cron := cron.Remove account.CronId
    match dbDelete account with
    | some text => (some (.msg text), m, cron)
    | none => (none, m.erase name, cron)

end model

/-! ## Package `onedrive`: session set-up and the hourly refresh job -/

namespace onedrive

/-- A round trip of `Onedrive.Save` and of its refresh job to the outside:
a token refresh for an account, a write of an account to the durable store,
and the registration of a job with the scheduler. -/
inductive AuthCall where
  | refreshToken (account : model.Account)
  | dbSave (account : model.Account)
  | addFunc (spec : String) (name : String)
  deriving DecidableEq, Repr

/-- The parts that `Onedrive.Save` uses and that are not among the sources,
taken as parameters: the table `onedriveHostMap` (here: whether a zone is a
key of it), the method `Onedrive.RefreshToken` (answered with an error or
`none`, and the account as left behind the pointer), the scheduler's answer
to `AddFunc` (an entry id or an error) and the durable store's answer to a
save.  Each answer may depend on the history of earlier round trips. -/
structure Auth where
  hostKnown : String → Bool
  RefreshToken : List AuthCall → model.Account → Option base.Error × model.Account
  addFunc : List AuthCall → Except String Int
  dbSave : List AuthCall → model.Account → model.DBResult

/-- The state `Save` and the job work on: the history of round trips, the
account registry and the scheduler. -/
structure World where
  hist : List AuthCall
  registry : model.AccountsMap
  cron : conf.Cron

/-- The job that `Onedrive.Save` hands to the scheduler, for the account
name it was scheduled for: it looks the account up by name when it fires,
returns if there is none, and otherwise refreshes the token of the account
found and saves it. -/
def refreshJob (A : Auth) (name : String) (w : World) : World :=
  match model.GetAccount w.registry name with
  | (_, false) => w
  | (newAccount, true) =>
    let r := A.RefreshToken w.hist newAccount
    let hist := w.hist ++ [AuthCall.refreshToken newAccount]
    let s := model.SaveAccount (A.dbSave hist r.2) w.registry r.2
    { hist := hist ++ [AuthCall.dbSave r.2], registry := s.2.2, cron := w.cron }

/-- `Onedrive.Save`; `old` is `none` for a nil pointer.  Returns the error,
the account as left behind the pointer, and the state. -/
def Save (U : utils.Funcs) (A : Auth) (account : model.Account)
    (old : Option model.Account) (w : World) :
    Option base.Error × model.Account × World :=
  if !A.hostKnown account.Zone then
    (some (base.Error.msg ("no [" ++ account.Zone ++ "] zone")), account, w)
  else
    let w := match old with
      | some o => { w with cron := w.cron.Remove o.CronId }
      | none => w
    let account := { account with RootFolder := U.ParsePath account.RootFolder }
    let r := A.RefreshToken w.hist account
    let w := { w with hist := w.hist ++ [AuthCall.refreshToken account] }
    let account := r.2
    match r.1 with
    | some err => (some err, account, w)
    | none =>
      match A.addFunc w.hist with
      | .error text =>
        (some (base.Error.msg text), account,
          { w with hist := w.hist ++ [AuthCall.addFunc "@every 1h" account.Name] })
      | .ok cronId =>
        let w := { w with hist := w.hist ++ [AuthCall.addFunc "@every 1h" account.Name],
                          cron := w.cron ++ [(cronId, account.Name)] }
        let account := { account with CronId := cronId }
        let s := model.SaveAccount (A.dbSave w.hist account) w.registry account
        (s.1, s.2.1, { w with hist := w.hist ++ [AuthCall.dbSave account], registry := s.2.2 })

/-- The scheduler fires the entry `id`: the refresh job of every entry with
that id runs, for the name it was scheduled for. -/
def fire (A : Auth) (id : Int) (w : World) : World :=
  ((w.cron.filter (fun e => e.1 == id)).map Prod.snd).foldl
    (fun w name => refreshJob A name w) w

end onedrive

namespace drivers

/-- Onedrive parts for the samples: every zone is known, a refresh sets the
status to "work" and hands out the access token "fresh", the scheduler and
the store accept everything. -/
def okAuth : onedrive.Auth where
  hostKnown := fun _ => true
  RefreshToken := fun _ account =>
    (none, { account with Status := "work", AccessToken := "fresh" })
  addFunc := fun hist => .ok hist.length
  dbSave := fun _ account => .stored account.ID account.UpdatedAt

/-- A state whose registry holds the single account "other"; the refresh job
of the account "gone", entry 1, is still scheduled. -/
def loneWorld : onedrive.World :=
  { hist := [],
    registry := model.RegisterAccount ∅ { model.Account.zero with Name := "other" },
    cron := [(1, "gone")] }

/-- A state whose registry holds the two accounts "a" and "b"; the refresh
job of the account "gone", entry 1, is still scheduled. -/
def pairWorld : onedrive.World :=
  { hist := [],
    registry := model.RegisterAccount
      (model.RegisterAccount ∅ { model.Account.zero with Name := "a" })
      { model.Account.zero with Name := "b" },
    cron := [(1, "gone")] }

end drivers

/-! ## `model.SortFiles` and the composite `Path` -/

namespace model

/-- Modelled from the spec: the comparison behind `model.SortFiles`, which is
not among the sources.  §4.1: sorting is "by field (name/size/modified-time)";
the field names are those which `FTP.Items` offers for `order_by`.  A missing
modification time counts as time 0. -/
def KeyLE (orderBy : String) (a b : File) : Prop :=
  if orderBy = "name" then a.Name ≤ b.Name
  else if orderBy = "size" then a.Size ≤ b.Size
  else a.UpdatedAt.getD 0 ≤ b.UpdatedAt.getD 0

/-- Modelled from the spec: `a` may stand before `b` in a listing sorted by
the account's `OrderBy` field and `OrderDirection` ("DESC" is descending,
as `FTP.Items` offers it; otherwise ascending). -/
def Before (account : Account) (a b : File) : Prop :=
  if account.OrderDirection = "DESC" then KeyLE account.OrderBy b a
  else KeyLE account.OrderBy a b

instance KeyLE.decidable (orderBy : String) : DecidableRel (KeyLE orderBy) := by
  intro a b
  unfold KeyLE
  infer_instance

instance Before.decidable (account : Account) : DecidableRel (Before account) := by
  intro a b
  unfold Before
  infer_instance

/-- Modelled from the spec: `model.SortFiles(files, account)` is not among
the sources.  §4.1: the requested sorting is applied once over the complete
listing, by field and direction.  Here: when `OrderBy` names one of the three
fields the listing is sorted (stably) by `Before`, otherwise it is left as it
is.  The result is the slice as it stands after the call. -/
def SortFiles (files : List File) (account : Account) : List File :=
  if account.OrderBy = "name" ∨ account.OrderBy = "size" ∨ account.OrderBy = "updated_at"
  then files.insertionSort (Before account) else files

end model

namespace ftp

/-- `FTP.Path`.  The result `(file, files)` stands for the returned pair of a
pointer and a slice: `none` for the nil pointer, `[]` for the nil slice.
(`SortFiles` sorts the slice in place; that the slice may share its elements
with the cached listing is not part of the cache model.) -/
def Path (U : utils.Funcs) (srv : Server) (path : String) (account : model.Account)
    (st : St) : Except base.Error (Option model.File × List model.File) × St :=
  match File U srv path account st with
  | (.error err, st) => (.error err, st)
  | (.ok file, st) =>
    if !file.IsDir then (.ok (some file, []), st)
    else
      match Files U srv path account st with
      | (.error err, st) => (.error err, st)
      | (.ok files, st) => (.ok (none, model.SortFiles files account), st)

end ftp

namespace onedrive

/-- `Onedrive.Path`: as `FTP.Path`, but the listing is returned as `Files`
gave it; `SortFiles` is not called. -/
def Path {ρ : Type} (U : utils.Funcs) (R : Rest ρ) (path : String)
    (account : model.Account) (st : St) :
    Except base.Error (Option model.File × List model.File) × St :=
  match File U R path account st with
  | (.error err, st) => (.error err, st)
  | (.ok file, st) =>
    if !file.IsDir then (.ok (some file, []), st)
    else
      match Files U R path account st with
      | (.error err, st) => (.error err, st)
      | (.ok files, st) => (.ok (none, files), st)

end onedrive

namespace drivers

/-- The account "disk" configured to sort by name, ascending. -/
def sortedAccount : model.Account :=
  { diskAccount with OrderBy := "name", OrderDirection := "ASC" }

/-- An Onedrive backend that lists `B.mp4`, `A.mp4`, `C.mp4`, in this order. -/
def shuffledRest : onedrive.Rest String :=
  { GetFiles := fun _ _ _ => .ok ["B.mp4", "A.mp4", "C.mp4"], FormatFile := videoFile }

/-- An FTP server that lists `B.mp4`, `A.mp4`, `C.mp4`, in this order. -/
def shuffledServer : ftp.Server :=
  { okServer with
    list := fun _ _ => .ok [videoEntry "B.mp4", videoEntry "A.mp4", videoEntry "C.mp4"] }

end drivers

namespace drivers

/-- The unified entry of a video file with the given name and size. -/
def sizedFile (name : String) (size : Int) : model.File :=
  { videoFile name with Size := size }

/-- An Onedrive state whose cache holds, for the root of the account "disk",
a listing in the order of the sizes: `B.mp4` (1), `A.mp4` (2), `C.mp4` (3). -/
def sizeOrderedOnedrive : onedrive.St :=
  { hist := [],
    cache := base.SetCache base.Cache.empty "/"
      (.files [sizedFile "B.mp4" 1, sizedFile "A.mp4" 2, sizedFile "C.mp4" 3])
      diskAccount }

end drivers

/-! ## A sample server with a folder and a file -/

namespace drivers

/-- An FTP server that accepts every command and lists the folder `docs`
(modified at time 3) followed by the file `A.mp4` (5 bytes, modified at
time 7). -/
def mixedServer : ftp.Server :=
  { okServer with
    list := fun _ _ =>
      .ok [{ Name := "docs", Target := "", Type_ := .EntryTypeFolder, Size := 0, Time := 3 },
           { Name := "A.mp4", Target := "", Type_ := .EntryTypeFile, Size := 5, Time := 7 }] }

end drivers

/-! ## Properties -/

namespace model

theorem len_insert_of_mem (m : AccountsMap) (k : String) (a : Account) (h : k ∈ m) :
    AccountsMap.len (m.insert k a) = AccountsMap.len m := by
  have hk : k ∈ m.keys := h
  have h1 : AccountsMap.len (m.insert k a) = (m.insert k a).keys.length := by
    simp [AccountsMap.len, AList.keys, List.keys]
  have h2 : AccountsMap.len m = m.keys.length := by
    simp [AccountsMap.len, AList.keys, List.keys]
  rw [h1, h2, AList.keys_insert, List.length_cons, List.length_erase_of_mem hk]
  have : 0 < m.keys.length := List.length_pos_of_mem hk
  omega

theorem count_key_le_one (m : AccountsMap) (k : String) : m.keys.count k ≤ 1 :=
  List.nodup_iff_count_le_one.mp m.keys_nodup k

/-- C8. When the registry holds exactly one account `a` (under whatever key),
`GetAccount` returns `(a, true)` for every name string, registered or not,
the empty string included. -/
theorem GetAccount_single (m : AccountsMap) (k : String) (a : Account) (n : String)
    (h : m.entries = [⟨k, a⟩]) : GetAccount m n = (a, true) := by
  simp [GetAccount, AccountsMap.len, h]

/-- Witness for C8: the only account is registered as "one", the lookup asks
for the empty name. -/
theorem GetAccount_single_witness :
    GetAccount (RegisterAccount ∅ { Account.zero with Name := "one" }) ""
      = ({ Account.zero with Name := "one" }, true) :=
  GetAccount_single _ "one" _ "" rfl

/-- C9. If the name of `account` is already registered, then after
`RegisterAccount`, and after `CreateAccount` and `SaveAccount` whatever the
durable store answers, the registry has at most one entry for that name and
no more accounts than before; whenever the account was written (always for
`RegisterAccount`, when the store accepted it for the other two) the entry
for the name is the account just written. -/
theorem register_existing_name (m : AccountsMap) (account : Account) (db : DBResult)
    (h : account.Name ∈ m) :
    ((RegisterAccount m account).keys.count account.Name ≤ 1 ∧
      AccountsMap.len (RegisterAccount m account) ≤ AccountsMap.len m ∧
      (RegisterAccount m account).lookup account.Name = some account) ∧
    ((CreateAccount db m account).2.2.keys.count account.Name ≤ 1 ∧
      AccountsMap.len (CreateAccount db m account).2.2 ≤ AccountsMap.len m ∧
      ((CreateAccount db m account).1 = none →
        (CreateAccount db m account).2.2.lookup account.Name
          = some (CreateAccount db m account).2.1)) ∧
    ((SaveAccount db m account).2.2.keys.count account.Name ≤ 1 ∧
      AccountsMap.len (SaveAccount db m account).2.2 ≤ AccountsMap.len m ∧
      ((SaveAccount db m account).1 = none →
        (SaveAccount db m account).2.2.lookup account.Name
          = some (SaveAccount db m account).2.1)) := by
  refine ⟨⟨count_key_le_one _ _, ?_, ?_⟩, ⟨count_key_le_one _ _, ?_, ?_⟩,
    ⟨count_key_le_one _ _, ?_, ?_⟩⟩
  · exact le_of_eq (len_insert_of_mem m account.Name account h)
  · exact AList.lookup_insert m
  · cases db with
    | failed text => simp [CreateAccount]
    | stored id updatedAt =>
      simp only [CreateAccount, RegisterAccount]
      exact le_of_eq (len_insert_of_mem m account.Name _ h)
  · cases db with
    | failed text => simp [CreateAccount]
    | stored id updatedAt =>
      intro _
      simp only [CreateAccount, RegisterAccount]
      exact AList.lookup_insert m
  · cases db with
    | failed text => simp [SaveAccount]
    | stored id updatedAt =>
      simp only [SaveAccount, RegisterAccount]
      exact le_of_eq (len_insert_of_mem m account.Name _ h)
  · cases db with
    | failed text => simp [SaveAccount]
    | stored id updatedAt =>
      intro _
      simp only [SaveAccount, RegisterAccount]
      exact AList.lookup_insert m

/-- Witness for C9: "a" is registered, and written again with a new status. -/
theorem register_existing_name_witness :
    AccountsMap.len (CreateAccount (.stored 7 none)
        (RegisterAccount ∅ { Account.zero with Name := "a" })
        { Account.zero with Name := "a", Status := "work" }).2.2
      ≤ AccountsMap.len (RegisterAccount ∅ { Account.zero with Name := "a" }) :=
  (register_existing_name (RegisterAccount ∅ { Account.zero with Name := "a" })
    { Account.zero with Name := "a", Status := "work" } (.stored 7 none)
    (by simp [RegisterAccount, AList.mem_keys, AList.keys_singleton])).2.1.2.1

end model

namespace alidrive

/-- C10 as stated fails: a raw file of type "folder" whose category is
"video" is given the kind `VIDEO`, not `FOLDER`. -/
theorem FormatFile_folder_video :
    ¬ (∀ (gft : String → Int) (name : String) (file : AliFile),
        file.Type_ = "folder" → (FormatFile gft name file).Type_ = conf.FOLDER) := by
  intro h
  have := h (fun _ => 0) "AliDrive"
    { DriveId := "", CreatedAt := none, FileExtension := "", FileId := "1",
      Type_ := "folder", Name := "clips", Category := "video", ParentFileId := "root",
      UpdatedAt := none, Size := 0, Thumbnail := "", Url := "" } rfl
  simp [FormatFile, conf.FOLDER, conf.VIDEO] at this

/-- C10, amended. `FormatFile` yields `VIDEO` when the category is "video" and
`IMAGE` when it is "image", whatever the type; otherwise it yields `FOLDER`
when the backend reports type "folder", whatever the extension, and the
extension-derived kind for a non-folder. -/
theorem FormatFile_kind (gft : String → Int) (name : String) (file : AliFile) :
    (file.Category = "video" → (FormatFile gft name file).Type_ = conf.VIDEO) ∧
    (file.Category = "image" → (FormatFile gft name file).Type_ = conf.IMAGE) ∧
    (file.Category ≠ "video" → file.Category ≠ "image" → file.Type_ = "folder" →
      (FormatFile gft name file).Type_ = conf.FOLDER) ∧
    (file.Category ≠ "video" → file.Category ≠ "image" → file.Type_ ≠ "folder" →
      (FormatFile gft name file).Type_ = gft file.FileExtension) := by
  refine ⟨?_, ?_, ?_, ?_⟩
  · intro hv
    simp [FormatFile, hv]
  · intro hi
    simp [FormatFile, hi]
  · intro hv hi hf
    simp [FormatFile, hv, hi, hf]
  · intro hv hi hf
    simp [FormatFile, hv, hi, hf]

/-- Witness for C10: a plain folder, and a video file with extension "mp4". -/
theorem FormatFile_kind_witness :
    (FormatFile (fun _ => 0) "AliDrive"
      { DriveId := "", CreatedAt := none, FileExtension := "", FileId := "1",
        Type_ := "folder", Name := "docs", Category := "", ParentFileId := "root",
        UpdatedAt := none, Size := 0, Thumbnail := "", Url := "" }).Type_ = conf.FOLDER ∧
    (FormatFile (fun _ => 0) "AliDrive"
      { DriveId := "", CreatedAt := none, FileExtension := "mp4", FileId := "2",
        Type_ := "file", Name := "a.mp4", Category := "video", ParentFileId := "root",
        UpdatedAt := none, Size := 9, Thumbnail := "", Url := "" }).Type_ = conf.VIDEO :=
  ⟨(FormatFile_kind _ _ _).2.2.1 (by decide) (by decide) rfl,
   (FormatFile_kind _ _ _).1 rfl⟩


theorem ali_GetFilesLoop_page (be : Backend) (fileId : String) (fuel : Nat) (marker c : String)
    (res P : List AliFile) (next : String) (account : model.Account) (st : St)
    (hm : marker ≠ "") (hc : (if marker == "first" then "" else marker) = c)
    (hs : Serves be fileId c P next) :
    GetFilesLoop be fileId (fuel + 1) marker res account st
      = GetFilesLoop be fileId fuel next (res ++ P) account
          (st.push (.list account fileId c)) := by
  obtain ⟨h1, h2, h3⟩ := hs st.hist account
  rw [GetFilesLoop]
  simp only [hc, bne_iff_ne, ne_eq, hm, not_false_eq_true, if_true, h1, h2, h3]
  simp

theorem ali_GetFilesLoop_chain (be : Backend) (fileId : String) (account : model.Account)
    (pages : List (List AliFile × String)) :
    ∀ (marker c : String) (res : List AliFile) (st : St) (k : Nat),
      marker ≠ "" → (if marker == "first" then "" else marker) = c →
      base.Chained (Serves be fileId) c pages →
      (∀ p ∈ pages, p.2 ≠ "first") →
      ∃ st', GetFilesLoop be fileId (pages.length + 1 + k) marker res account st
          = some (.ok (res ++ base.concatPages pages), account, st') ∧
        st'.registry = st.registry := by
  induction pages with
  | nil => intro marker c res st k _ _ h; exact absurd h (by simp [base.Chained])
  | cons p rest ih =>
    intro marker c res st k hm hc hch hnf
    cases rest with
    | nil =>
      obtain ⟨hs, hemp⟩ := hch
      refine ⟨st.push (.list account fileId c), ?_, rfl⟩
      have := ali_GetFilesLoop_page be fileId (1 + k) marker c res p.1 p.2 account st hm hc hs
      have e : [p].length + 1 + k = (1 + k) + 1 := by simp; omega
      rw [e, this, hemp, show 1 + k = k + 1 from by omega, GetFilesLoop]
      simp [base.concatPages]
    | cons q rest' =>
      obtain ⟨hs, hne, hch'⟩ := hch
      have hnf1 : p.2 ≠ "first" := hnf p (by simp)
      have hc' : (if p.2 == "first" then "" else p.2) = p.2 := by simp [hnf1]
      obtain ⟨st', h', hr⟩ := ih p.2 p.2 (res ++ p.1) (st.push (.list account fileId c)) k
        hne hc' hch' (fun x hx => hnf x (List.mem_cons_of_mem _ hx))
      refine ⟨st', ?_, hr⟩
      have := ali_GetFilesLoop_page be fileId ((q :: rest').length + 1 + k) marker c res p.1 p.2
        account st hm hc hs
      have e : (p :: q :: rest').length + 1 + k = ((q :: rest').length + 1 + k) + 1 := by
        simp; omega
      rw [e, this, h']
      simp [base.concatPages]

/-- Draining a chain of pages none of whose continuation cursors is the
literal "first": `GetFiles` returns the concatenation of the pages, leaves
the account and the registry as they were, and the length of the result is
the sum of the page lengths. -/
theorem ali_GetFiles_chain (be : Backend) (fileId : String) (account : model.Account)
    (st : St) (pages : List (List AliFile × String)) (k : Nat)
    (hch : base.Chained (Serves be fileId) "" pages)
    (hnf : ∀ p ∈ pages, p.2 ≠ "first") :
    ∃ st', GetFiles be (pages.length + 1 + k) fileId account st
        = some (.ok (base.concatPages pages), account, st') ∧
      st'.registry = st.registry ∧
      (base.concatPages pages).length = ((pages.map Prod.fst).map List.length).sum := by
  obtain ⟨st', h, hr⟩ := ali_GetFilesLoop_chain be fileId account pages "first" "" [] st k
    (by decide) (by simp) hch hnf
  refine ⟨st', ?_, hr, ?_⟩
  · simpa [GetFiles] using h
  · simp [base.concatPages, List.length_flatten]

end alidrive

namespace pikpak

theorem Request_served (be : Backend) (id : String) (fuel : Nat) (c : String)
    (P : List File) (next : String) (account : model.Account) (st : St)
    (hs : Serves be id c P next) :
    ∃ body, Request be (fuel + 1) filesUrl .Get (some (listQuery id c)) none
        (some Files.zero) account st
      = some (.ok body, some { Files := P, NextPageToken := next }, account,
          st.push (.request account filesUrl .Get (some (listQuery id c)) none)) := by
  obtain ⟨h1, h2, h3⟩ := hs st.hist account
  refine ⟨(be.request st.hist account filesUrl .Get (some (listQuery id c)) none).body, ?_⟩
  simp [Request, h1, h2, h3, fillResp]

theorem pik_GetFilesLoop_page (be : Backend) (id : String) (fuel : Nat) (pageToken c : String)
    (res P : List File) (next : String) (account : model.Account) (st : St)
    (hm : pageToken ≠ "") (hc : (if pageToken == "first" then "" else pageToken) = c)
    (hs : Serves be id c P next) :
    GetFilesLoop be id (fuel + 2) pageToken res account st
      = GetFilesLoop be id (fuel + 1) next (res ++ P) account
          (st.push (.request account filesUrl .Get (some (listQuery id c)) none)) := by
  obtain ⟨body, hb⟩ := Request_served be id fuel c P next account st hs
  rw [GetFilesLoop]
  simp only [hc, bne_iff_ne, ne_eq, hm, not_false_eq_true, if_true, hb]
  simp

theorem pik_GetFilesLoop_chain (be : Backend) (id : String) (account : model.Account)
    (pages : List (List File × String)) :
    ∀ (pageToken c : String) (res : List File) (st : St) (k : Nat),
      pageToken ≠ "" → (if pageToken == "first" then "" else pageToken) = c →
      base.Chained (Serves be id) c pages →
      (∀ p ∈ pages, p.2 ≠ "first") →
      ∃ st', GetFilesLoop be id (pages.length + 1 + k) pageToken res account st
          = some (.ok (res ++ base.concatPages pages), account, st') ∧
        st'.registry = st.registry := by
  induction pages with
  | nil => intro pageToken c res st k _ _ h; exact absurd h (by simp [base.Chained])
  | cons p rest ih =>
    intro pageToken c res st k hm hc hch hnf
    cases rest with
    | nil =>
      obtain ⟨hs, hemp⟩ := hch
      refine ⟨st.push (.request account filesUrl .Get (some (listQuery id c)) none), ?_, rfl⟩
      have := pik_GetFilesLoop_page be id k pageToken c res p.1 p.2 account st hm hc hs
      have e : [p].length + 1 + k = k + 2 := by simp; omega
      rw [e, this, hemp, GetFilesLoop]
      simp [base.concatPages]
    | cons q rest' =>
      obtain ⟨hs, hne, hch'⟩ := hch
      have hnf1 : p.2 ≠ "first" := hnf p (by simp)
      have hc' : (if p.2 == "first" then "" else p.2) = p.2 := by simp [hnf1]
      obtain ⟨st', h', hr⟩ := ih p.2 p.2 (res ++ p.1)
        (st.push (.request account filesUrl .Get (some (listQuery id c)) none)) k
        hne hc' hch' (fun x hx => hnf x (List.mem_cons_of_mem _ hx))
      refine ⟨st', ?_, hr⟩
      have := pik_GetFilesLoop_page be id ((rest'.length + 1) + k) pageToken c res p.1 p.2
        account st hm hc hs
      have e : (p :: q :: rest').length + 1 + k = ((rest'.length + 1) + k) + 2 := by
        simp; omega
      have e' : (q :: rest').length + 1 + k = ((rest'.length + 1) + k) + 1 := by
        simp; omega
      rw [e, this, ← e', h']
      simp [base.concatPages]

/-- Draining a chain of pages none of whose continuation tokens is the
literal "first": `GetFiles` returns the concatenation of the pages, leaves
the account and the registry as they were, and the length of the result is
the sum of the page lengths. -/
theorem pik_GetFiles_chain (be : Backend) (id : String) (account : model.Account)
    (st : St) (pages : List (List File × String)) (k : Nat)
    (hch : base.Chained (Serves be id) "" pages)
    (hnf : ∀ p ∈ pages, p.2 ≠ "first") :
    ∃ st', GetFiles be (pages.length + 1 + k) id account st
        = some (.ok (base.concatPages pages), account, st') ∧
      st'.registry = st.registry ∧
      (base.concatPages pages).length = ((pages.map Prod.fst).map List.length).sum := by
  obtain ⟨st', h, hr⟩ := pik_GetFilesLoop_chain be id account pages "first" "" [] st k
    (by decide) (by simp) hch hnf
  refine ⟨st', ?_, hr, ?_⟩
  · simpa [GetFiles] using h
  · simp [base.concatPages, List.length_flatten]

end pikpak

namespace alidrive

theorem ali_firstCursor_served :
    base.Chained (Serves firstCursorBackend "root") ""
      [([sampleFile "a" "A.mp4"], "first"), ([sampleFile "b" "B.mp4"], "")] := by
  refine ⟨?_, by decide, ?_, rfl⟩
  · intro hist account; simp [firstCursorBackend]
  · intro hist account; simp [firstCursorBackend]

theorem ali_firstCursor_loops (fuel : Nat) :
    ∀ (res : List AliFile) (account : model.Account) (st : St),
      GetFilesLoop firstCursorBackend "root" fuel "first" res account st = none := by
  induction fuel with
  | zero => intro res account st; rfl
  | succ n ih =>
    intro res account st
    rw [ali_GetFilesLoop_page firstCursorBackend "root" n "first" "" res
      [sampleFile "a" "A.mp4"] "first" account st (by decide) (by simp)
      (by intro hist account; simp [firstCursorBackend])]
    exact ih _ _ _

theorem ali_twoPage_served :
    base.Chained (Serves twoPageBackend "root") ""
      [([sampleFile "a" "A.mp4"], "tok1"), ([sampleFile "b" "B.mp4"], "")] := by
  refine ⟨?_, by decide, ?_, rfl⟩
  · intro hist account; simp [twoPageBackend]
  · intro hist account; simp [twoPageBackend]

end alidrive

namespace pikpak

theorem pik_firstCursor_served :
    base.Chained (Serves firstCursorBackend "root") ""
      [([sampleFile "a" "A.mp4"], "first"), ([sampleFile "b" "B.mp4"], "")] := by
  refine ⟨?_, by decide, ?_, rfl⟩
  · intro hist account; simp [firstCursorBackend, pageTokenOf, listQuery]
  · intro hist account; simp [firstCursorBackend, pageTokenOf, listQuery]

theorem pik_firstCursor_loops (fuel : Nat) :
    ∀ (res : List File) (account : model.Account) (st : St),
      GetFilesLoop firstCursorBackend "root" fuel "first" res account st = none := by
  induction fuel with
  | zero => intro res account st; rfl
  | succ n ih =>
    intro res account st
    cases n with
    | zero => simp [GetFilesLoop, Request]
    | succ m =>
      rw [pik_GetFilesLoop_page firstCursorBackend "root" m "first" "" res
        [sampleFile "a" "A.mp4"] "first" account st (by decide) (by simp)
        (by intro hist account; simp [firstCursorBackend, pageTokenOf, listQuery])]
      exact ih _ _ _

theorem pik_twoPage_served :
    base.Chained (Serves twoPageBackend "root") ""
      [([sampleFile "a" "A.mp4"], "tok1"), ([sampleFile "b" "B.mp4"], "")] := by
  refine ⟨?_, by decide, ?_, rfl⟩
  · intro hist account; simp [twoPageBackend, pageTokenOf, listQuery]
  · intro hist account; simp [twoPageBackend, pageTokenOf, listQuery]

end pikpak

namespace drivers

/-- C1, at the failing input.  The backend `firstCursorBackend` reports no
error and its two pages are chained by continuation cursors (the empty
cursor is served `[A.mp4]` and the cursor "first", the cursor "first" is
served `[B.mp4]` and the empty cursor), yet `GetFiles` of AliDrive and of
PikPak does not return `[A.mp4, B.mp4]`: with whatever fuel, from whatever
state, it never returns, because the loop takes the cursor "first" for its
own start sentinel and requests the first page again. -/
theorem GetFiles_first_cursor_never_returns :
    (base.Chained (alidrive.Serves alidrive.firstCursorBackend "root") ""
        [([alidrive.sampleFile "a" "A.mp4"], "first"),
         ([alidrive.sampleFile "b" "B.mp4"], "")] ∧
      ∀ fuel account st,
        alidrive.GetFiles alidrive.firstCursorBackend fuel "root" account st = none) ∧
    (base.Chained (pikpak.Serves pikpak.firstCursorBackend "root") ""
        [([pikpak.sampleFile "a" "A.mp4"], "first"),
         ([pikpak.sampleFile "b" "B.mp4"], "")] ∧
      ∀ fuel account st,
        pikpak.GetFiles pikpak.firstCursorBackend fuel "root" account st = none) :=
  ⟨⟨alidrive.ali_firstCursor_served, fun fuel account st =>
      alidrive.ali_firstCursor_loops fuel [] account st⟩,
   ⟨pikpak.pik_firstCursor_served, fun fuel account st =>
      pikpak.pik_firstCursor_loops fuel [] account st⟩⟩

/-- Paging without the sentinel clash.  For every backend that reports no
error and whose pages are chained by continuation cursors none of which is
the string "first", `GetFiles` of AliDrive and of PikPak returns, with
enough fuel, the concatenation of the pages in order, and its length is the
sum of the page lengths. -/
theorem GetFiles_concat (abe : alidrive.Backend) (pbe : pikpak.Backend) (id : String)
    (account : model.Account) (ast : alidrive.St) (pst : pikpak.St)
    (apages : List (List alidrive.AliFile × String))
    (ppages : List (List pikpak.File × String)) (k : Nat)
    (ha : base.Chained (alidrive.Serves abe id) "" apages)
    (hp : base.Chained (pikpak.Serves pbe id) "" ppages)
    (hna : ∀ p ∈ apages, p.2 ≠ "first") (hnp : ∀ p ∈ ppages, p.2 ≠ "first") :
    (∃ st', alidrive.GetFiles abe (apages.length + 1 + k) id account ast
        = some (.ok (base.concatPages apages), account, st') ∧
      (base.concatPages apages).length = ((apages.map Prod.fst).map List.length).sum) ∧
    (∃ st', pikpak.GetFiles pbe (ppages.length + 1 + k) id account pst
        = some (.ok (base.concatPages ppages), account, st') ∧
      (base.concatPages ppages).length = ((ppages.map Prod.fst).map List.length).sum) := by
  obtain ⟨s1, h1, _, l1⟩ := alidrive.ali_GetFiles_chain abe id account ast apages k ha hna
  obtain ⟨s2, h2, _, l2⟩ := pikpak.pik_GetFiles_chain pbe id account pst ppages k hp hnp
  exact ⟨⟨s1, h1, l1⟩, ⟨s2, h2, l2⟩⟩

/-- The two-page scenario of the spec (cursor "tok1"): both drivers return
`[A.mp4, B.mp4]`. -/
theorem GetFiles_concat_two_pages :
    (∃ st', alidrive.GetFiles alidrive.twoPageBackend 3 "root" model.Account.zero
        alidrive.St.init
        = some (.ok [alidrive.sampleFile "a" "A.mp4", alidrive.sampleFile "b" "B.mp4"],
            model.Account.zero, st')) ∧
    (∃ st', pikpak.GetFiles pikpak.twoPageBackend 3 "root" model.Account.zero
        pikpak.St.init
        = some (.ok [pikpak.sampleFile "a" "A.mp4", pikpak.sampleFile "b" "B.mp4"],
            model.Account.zero, st')) := by
  obtain ⟨⟨s1, h1, _⟩, ⟨s2, h2, _⟩⟩ :=
    GetFiles_concat alidrive.twoPageBackend pikpak.twoPageBackend "root"
      model.Account.zero alidrive.St.init pikpak.St.init _ _ 0
      alidrive.ali_twoPage_served pikpak.pik_twoPage_served (by decide) (by decide)
  exact ⟨⟨s1, h1⟩, ⟨s2, h2⟩⟩

end drivers

namespace alidrive

theorem ali_RefreshToken_hist (be : Backend) (account : model.Account) (st : St) :
    (RefreshToken be account st).2.2 = st.push (.token account) := by
  simp only [RefreshToken]
  split
  · rfl
  · split <;> rfl

theorem GetFilesLoop_token_invalid (be : Backend) (fileId : String) (fuel : Nat)
    (marker : String) (res : List AliFile) (account account' : model.Account) (st st' : St)
    (hm : marker ≠ "") (he : (be.list st.hist account fileId
        (if marker == "first" then "" else marker)).err = none)
    (hc : (be.list st.hist account fileId
        (if marker == "first" then "" else marker)).e.Code = "AccessTokenInvalid")
    (hr : RefreshToken be account
        (st.push (.list account fileId (if marker == "first" then "" else marker)))
        = (none, account', st')) :
    GetFilesLoop be fileId (fuel + 1) marker res account st
      = GetFiles be fuel fileId (saveAccount be account' st').2.1
          (saveAccount be account' st').2.2 := by
  rw [GetFilesLoop]
  simp only [bne_iff_ne, ne_eq, hm, not_false_eq_true, if_true, he, hc, hr]
  simp [GetFiles]

theorem Rename_settled (be : Backend) (fuel : Nat) (fileId name : String)
    (account : model.Account) (st : St)
    (h : (be.update st.hist account fileId name).err ≠ none ∨
      (be.update st.hist account fileId name).e.Code ≠ "AccessTokenInvalid") :
    ∃ out, Rename be (fuel + 1) fileId name account st
      = some (out, account, st.push (.update account fileId name)) := by
  cases he : (be.update st.hist account fileId name).err with
  | some text => exact ⟨_, by simp [Rename, he]; rfl⟩
  | none =>
    have hc : (be.update st.hist account fileId name).e.Code ≠ "AccessTokenInvalid" := by
      rcases h with h | h
      · exact absurd he h
      · exact h
    by_cases h0 : (be.update st.hist account fileId name).e.Code = ""
    · by_cases hn : (be.update st.hist account fileId name).name = some name
      · exact ⟨_, by simp [Rename, he, h0, hn]; rfl⟩
      · exact ⟨_, by simp [Rename, he, h0, hn]; rfl⟩
    · exact ⟨_, by simp [Rename, he, h0, hc]; rfl⟩

theorem Batch_settled (be : Backend) (fuel : Nat) (srcId dstId : String)
    (account : model.Account) (st : St)
    (h : (be.batch st.hist account srcId dstId).err ≠ none ∨
      (be.batch st.hist account srcId dstId).e.Code ≠ "AccessTokenInvalid") :
    ∃ out, Batch be (fuel + 1) srcId dstId account st
      = some (out, account, st.push (.batch account srcId dstId)) := by
  cases he : (be.batch st.hist account srcId dstId).err with
  | some text => exact ⟨_, by simp [Batch, he]; rfl⟩
  | none =>
    have hc : (be.batch st.hist account srcId dstId).e.Code ≠ "AccessTokenInvalid" := by
      rcases h with h | h
      · exact absurd he h
      · exact h
    by_cases h0 : (be.batch st.hist account srcId dstId).e.Code = ""
    · refine ⟨if "\"status\":200".toList <:+: (be.batch st.hist account srcId dstId).body.toList
        then none else some (.msg (be.batch st.hist account srcId dstId).body), ?_⟩
      simp only [Batch, he, h0]
      simp only [bne_self_eq_false, Bool.false_eq_true, if_false, decide_eq_true_eq]
      split_ifs <;> rfl
    · exact ⟨_, by simp [Batch, he, h0, hc]; rfl⟩

theorem Rename_token_invalid (be : Backend) (fuel : Nat) (fileId name : String)
    (account account' : model.Account) (st st' : St)
    (he : (be.update st.hist account fileId name).err = none)
    (hc : (be.update st.hist account fileId name).e.Code = "AccessTokenInvalid")
    (hr : RefreshToken be account (st.push (.update account fileId name))
        = (none, account', st')) :
    Rename be (fuel + 1) fileId name account st
      = Rename be fuel fileId name (saveAccount be account' st').2.1
          (saveAccount be account' st').2.2 := by
  rw [Rename]
  simp only [he, hc, hr]
  simp

theorem Batch_token_invalid (be : Backend) (fuel : Nat) (srcId dstId : String)
    (account account' : model.Account) (st st' : St)
    (he : (be.batch st.hist account srcId dstId).err = none)
    (hc : (be.batch st.hist account srcId dstId).e.Code = "AccessTokenInvalid")
    (hr : RefreshToken be account (st.push (.batch account srcId dstId))
        = (none, account', st')) :
    Batch be (fuel + 1) srcId dstId account st
      = Batch be fuel srcId dstId (saveAccount be account' st').2.1
          (saveAccount be account' st').2.2 := by
  rw [Batch]
  simp only [he, hc, hr]
  simp

end alidrive

namespace pikpak

theorem Login_hist (be : Backend) (account : model.Account) (st : St) :
    (Login be account st).2.2 = st.push (.signin account) := by
  simp only [Login]
  split
  · rfl
  · split <;> rfl

theorem pik_RefreshToken_hist (be : Backend) (account : model.Account) (st : St) :
    (RefreshToken be account st).2.2 = st.push (.token account) ∨
      (RefreshToken be account st).2.2
        = (st.push (.token account)).push (.signin account) := by
  simp only [RefreshToken]
  split
  · exact Or.inl rfl
  · split
    · exact Or.inr (Login_hist be account _)
    · exact Or.inl rfl

theorem Request_settled (be : Backend) (fuel : Nat) (url : String) (method : Method)
    (query : Option (List (String × String))) (data : Option String) (resp : Option Files)
    (account : model.Account) (st : St)
    (hm : ∀ code, method ≠ .other code)
    (h : (be.request st.hist account url method query data).err ≠ none ∨
      (be.request st.hist account url method query data).e.ErrorCode ≠ 16) :
    ∃ out, Request be (fuel + 1) url method query data resp account st
      = some (out, fillResp resp (be.request st.hist account url method query data).result,
          account, st.push (.request account url method query data)) := by
  cases method with
  | other code => exact absurd rfl (hm code)
  | Get =>
    cases he : (be.request st.hist account url .Get query data).err with
    | some text => exact ⟨_, by simp [Request, he]; rfl⟩
    | none =>
      have hc : (be.request st.hist account url .Get query data).e.ErrorCode ≠ 16 := by
        rcases h with h | h
        · exact absurd he h
        · exact h
      by_cases h0 : (be.request st.hist account url .Get query data).e.ErrorCode = 0
      · exact ⟨_, by simp [Request, he, h0]; rfl⟩
      · exact ⟨_, by simp [Request, he, h0, hc]; rfl⟩
  | Post =>
    cases he : (be.request st.hist account url .Post query data).err with
    | some text => exact ⟨_, by simp [Request, he]; rfl⟩
    | none =>
      have hc : (be.request st.hist account url .Post query data).e.ErrorCode ≠ 16 := by
        rcases h with h | h
        · exact absurd he h
        · exact h
      by_cases h0 : (be.request st.hist account url .Post query data).e.ErrorCode = 0
      · exact ⟨_, by simp [Request, he, h0]; rfl⟩
      · exact ⟨_, by simp [Request, he, h0, hc]; rfl⟩
  | Patch =>
    cases he : (be.request st.hist account url .Patch query data).err with
    | some text => exact ⟨_, by simp [Request, he]; rfl⟩
    | none =>
      have hc : (be.request st.hist account url .Patch query data).e.ErrorCode ≠ 16 := by
        rcases h with h | h
        · exact absurd he h
        · exact h
      by_cases h0 : (be.request st.hist account url .Patch query data).e.ErrorCode = 0
      · exact ⟨_, by simp [Request, he, h0]; rfl⟩
      · exact ⟨_, by simp [Request, he, h0, hc]; rfl⟩

theorem Request_token_invalid (be : Backend) (fuel : Nat) (url : String) (method : Method)
    (query : Option (List (String × String))) (data : Option String) (resp : Option Files)
    (account account' : model.Account) (st st' : St)
    (hm : ∀ code, method ≠ .other code)
    (he : (be.request st.hist account url method query data).err = none)
    (hc : (be.request st.hist account url method query data).e.ErrorCode = 16)
    (hr : RefreshToken be account (st.push (.request account url method query data))
        = (none, account', st')) :
    Request be (fuel + 1) url method query data resp account st
      = Request be fuel url method query data
          (fillResp resp (be.request st.hist account url method query data).result)
          (saveAccount be account' st').2.1 (saveAccount be account' st').2.2 := by
  cases method with
  | other code => exact absurd rfl (hm code)
  | Get => simp [Request, he, hc, hr]
  | Post => simp [Request, he, hc, hr]
  | Patch => simp [Request, he, hc, hr]

end pikpak

namespace drivers

/-- C2 as stated fails.  The backend `twiceInvalidBackend` answers the call
and its retry with the token-invalid code 16 and every refresh succeeds; the
call `Request` does not end with an error after the retry: it refreshes a
second time, issues the request a third time and returns the body of the
third answer (two token calls and three requests in the history). -/
theorem Request_retries_twice :
    (pikpak.Request pikpak.twiceInvalidBackend 3 "u" .Get none none none
      model.Account.zero pikpak.St.init).map
        (fun r => (r.1, r.2.2.2.hist.countP pikpak.Call.isToken,
                   r.2.2.2.hist.countP pikpak.Call.isRequest))
      = some (.ok "done", 2, 3) := by
  rfl

/-- C2, amended.  When a call of PikPak `Request`, or of AliDrive `GetFiles`
(at any page), `Rename` or `Batch`, is answered with the token-invalid code
and the refresh succeeds, the token is refreshed once, the account is saved
and the original call is issued again with the refreshed account (`GetFiles`
from its first page); the history between the two shows the request, one
token call (for PikPak possibly followed by the sign-in it falls back to) and
the save.  The re-issued call is the same function with the remaining fuel,
handled like a fresh call: when it is answered with anything but the
token-invalid code, `Request`, `Rename` and `Batch` return right after it (one
refresh and one retry in all); a token-invalid answer to it leads to another
refresh and retry, not to an error. -/
theorem token_invalid_retry (pbe : pikpak.Backend) (abe : alidrive.Backend) (fuel : Nat)
    (account account' : model.Account) :
    (∀ (url : String) (method : pikpak.Method) (query : Option (List (String × String)))
        (data : Option String) (resp : Option pikpak.Files) (st st' : pikpak.St),
      (∀ code, method ≠ .other code) →
      (pbe.request st.hist account url method query data).err = none →
      (pbe.request st.hist account url method query data).e.ErrorCode = 16 →
      pikpak.RefreshToken pbe account (st.push (.request account url method query data))
        = (none, account', st') →
      pikpak.Request pbe (fuel + 1) url method query data resp account st
        = pikpak.Request pbe fuel url method query data
            (pikpak.fillResp resp (pbe.request st.hist account url method query data).result)
            (pikpak.saveAccount pbe account' st').2.1
            (pikpak.saveAccount pbe account' st').2.2 ∧
      ((pikpak.saveAccount pbe account' st').2.2.hist
          = st.hist ++ [.request account url method query data, .token account,
              .dbSave account'] ∨
        (pikpak.saveAccount pbe account' st').2.2.hist
          = st.hist ++ [.request account url method query data, .token account,
              .signin account, .dbSave account']) ∧
      ((pbe.request (pikpak.saveAccount pbe account' st').2.2.hist
            (pikpak.saveAccount pbe account' st').2.1 url method query data).err ≠ none ∨
          (pbe.request (pikpak.saveAccount pbe account' st').2.2.hist
            (pikpak.saveAccount pbe account' st').2.1 url method query data).e.ErrorCode
            ≠ 16 →
        ∃ out resp', pikpak.Request pbe (fuel + 2) url method query data resp account st
          = some (out, resp', (pikpak.saveAccount pbe account' st').2.1,
              (pikpak.saveAccount pbe account' st').2.2.push
                (.request (pikpak.saveAccount pbe account' st').2.1 url method query
                  data)))) ∧
    (∀ (fileId marker : String) (res : List alidrive.AliFile) (st st' : alidrive.St),
      marker ≠ "" →
      (abe.list st.hist account fileId (if marker == "first" then "" else marker)).err
        = none →
      (abe.list st.hist account fileId (if marker == "first" then "" else marker)).e.Code
        = "AccessTokenInvalid" →
      alidrive.RefreshToken abe account
          (st.push (.list account fileId (if marker == "first" then "" else marker)))
        = (none, account', st') →
      alidrive.GetFilesLoop abe fileId (fuel + 1) marker res account st
        = alidrive.GetFiles abe fuel fileId (alidrive.saveAccount abe account' st').2.1
            (alidrive.saveAccount abe account' st').2.2 ∧
      (alidrive.saveAccount abe account' st').2.2.hist
        = st.hist ++ [.list account fileId (if marker == "first" then "" else marker),
            .token account, .dbSave account']) ∧
    (∀ (fileId name : String) (st st' : alidrive.St),
      (abe.update st.hist account fileId name).err = none →
      (abe.update st.hist account fileId name).e.Code = "AccessTokenInvalid" →
      alidrive.RefreshToken abe account (st.push (.update account fileId name))
        = (none, account', st') →
      alidrive.Rename abe (fuel + 1) fileId name account st
        = alidrive.Rename abe fuel fileId name (alidrive.saveAccount abe account' st').2.1
            (alidrive.saveAccount abe account' st').2.2 ∧
      (alidrive.saveAccount abe account' st').2.2.hist
        = st.hist ++ [.update account fileId name, .token account, .dbSave account'] ∧
      ((abe.update (alidrive.saveAccount abe account' st').2.2.hist
            (alidrive.saveAccount abe account' st').2.1 fileId name).err ≠ none ∨
          (abe.update (alidrive.saveAccount abe account' st').2.2.hist
            (alidrive.saveAccount abe account' st').2.1 fileId name).e.Code
            ≠ "AccessTokenInvalid" →
        ∃ out, alidrive.Rename abe (fuel + 2) fileId name account st
          = some (out, (alidrive.saveAccount abe account' st').2.1,
              (alidrive.saveAccount abe account' st').2.2.push
                (.update (alidrive.saveAccount abe account' st').2.1 fileId name)))) ∧
    (∀ (srcId dstId : String) (st st' : alidrive.St),
      (abe.batch st.hist account srcId dstId).err = none →
      (abe.batch st.hist account srcId dstId).e.Code = "AccessTokenInvalid" →
      alidrive.RefreshToken abe account (st.push (.batch account srcId dstId))
        = (none, account', st') →
      alidrive.Batch abe (fuel + 1) srcId dstId account st
        = alidrive.Batch abe fuel srcId dstId (alidrive.saveAccount abe account' st').2.1
            (alidrive.saveAccount abe account' st').2.2 ∧
      (alidrive.saveAccount abe account' st').2.2.hist
        = st.hist ++ [.batch account srcId dstId, .token account, .dbSave account'] ∧
      ((abe.batch (alidrive.saveAccount abe account' st').2.2.hist
            (alidrive.saveAccount abe account' st').2.1 srcId dstId).err ≠ none ∨
          (abe.batch (alidrive.saveAccount abe account' st').2.2.hist
            (alidrive.saveAccount abe account' st').2.1 srcId dstId).e.Code
            ≠ "AccessTokenInvalid" →
        ∃ out, alidrive.Batch abe (fuel + 2) srcId dstId account st
          = some (out, (alidrive.saveAccount abe account' st').2.1,
              (alidrive.saveAccount abe account' st').2.2.push
                (.batch (alidrive.saveAccount abe account' st').2.1 srcId dstId)))) := by
  refine ⟨?_, ?_, ?_, ?_⟩
  · intro url method query data resp st st' hm he hc hr
    refine ⟨pikpak.Request_token_invalid pbe fuel url method query data resp account account'
      st st' hm he hc hr, ?_, ?_⟩
    · have hh := pikpak.pik_RefreshToken_hist pbe account
        (st.push (.request account url method query data))
      rw [hr] at hh
      rcases hh with hh | hh
      · left
        simp only at hh
        simp [pikpak.saveAccount, hh, pikpak.St.push]
      · right
        simp only at hh
        simp [pikpak.saveAccount, hh, pikpak.St.push]
    · intro hfin
      obtain ⟨out, ho⟩ := pikpak.Request_settled pbe fuel url method query data
        (pikpak.fillResp resp (pbe.request st.hist account url method query data).result)
        (pikpak.saveAccount pbe account' st').2.1 (pikpak.saveAccount pbe account' st').2.2
        hm hfin
      exact ⟨out, _, by
        rw [pikpak.Request_token_invalid pbe (fuel + 1) url method query data resp account
          account' st st' hm he hc hr, ho]⟩
  · intro fileId marker res st st' hm he hc hr
    refine ⟨alidrive.GetFilesLoop_token_invalid abe fileId fuel marker res account account'
      st st' hm he hc hr, ?_⟩
    have hh := alidrive.ali_RefreshToken_hist abe account
      (st.push (.list account fileId (if marker == "first" then "" else marker)))
    rw [hr] at hh
    simp only at hh
    simp [alidrive.saveAccount, hh, alidrive.St.push]
  · intro fileId name st st' he hc hr
    refine ⟨alidrive.Rename_token_invalid abe fuel fileId name account account'
      st st' he hc hr, ?_, ?_⟩
    · have hh := alidrive.ali_RefreshToken_hist abe account
        (st.push (.update account fileId name))
      rw [hr] at hh
      simp only at hh
      simp [alidrive.saveAccount, hh, alidrive.St.push]
    · intro hfin
      obtain ⟨out, ho⟩ := alidrive.Rename_settled abe fuel fileId name
        (alidrive.saveAccount abe account' st').2.1 (alidrive.saveAccount abe account' st').2.2
        hfin
      exact ⟨out, by
        rw [alidrive.Rename_token_invalid abe (fuel + 1) fileId name account account'
          st st' he hc hr, ho]⟩
  · intro srcId dstId st st' he hc hr
    refine ⟨alidrive.Batch_token_invalid abe fuel srcId dstId account account'
      st st' he hc hr, ?_, ?_⟩
    · have hh := alidrive.ali_RefreshToken_hist abe account
        (st.push (.batch account srcId dstId))
      rw [hr] at hh
      simp only at hh
      simp [alidrive.saveAccount, hh, alidrive.St.push]
    · intro hfin
      obtain ⟨out, ho⟩ := alidrive.Batch_settled abe fuel srcId dstId
        (alidrive.saveAccount abe account' st').2.1 (alidrive.saveAccount abe account' st').2.2
        hfin
      exact ⟨out, by
        rw [alidrive.Batch_token_invalid abe (fuel + 1) srcId dstId account account'
          st st' he hc hr, ho]⟩

/-- Witness for C2: the first answer of the sample backends is token-invalid
and the refresh succeeds; each call continues as the same call on the
refreshed, saved account, and `Rename`, whose retry is accepted, returns with
the history update, token, save, update. -/
theorem token_invalid_retry_witness :
    pikpak.Request pikpak.twiceInvalidBackend 3 "u" .Get none none none
        model.Account.zero pikpak.St.init
      = pikpak.Request pikpak.twiceInvalidBackend 2 "u" .Get none none none
          (pikpak.saveAccount pikpak.twiceInvalidBackend refreshedAccount
            { hist := [.request model.Account.zero "u" .Get none none,
                       .token model.Account.zero], registry := ∅ }).2.1
          (pikpak.saveAccount pikpak.twiceInvalidBackend refreshedAccount
            { hist := [.request model.Account.zero "u" .Get none none,
                       .token model.Account.zero], registry := ∅ }).2.2 ∧
    alidrive.Rename alidrive.onceInvalidBackend 3 "f" "new" model.Account.zero
        alidrive.St.init
      = alidrive.Rename alidrive.onceInvalidBackend 2 "f" "new"
          (alidrive.saveAccount alidrive.onceInvalidBackend refreshedAccount
            { hist := [.update model.Account.zero "f" "new", .token model.Account.zero],
              registry := ∅ }).2.1
          (alidrive.saveAccount alidrive.onceInvalidBackend refreshedAccount
            { hist := [.update model.Account.zero "f" "new", .token model.Account.zero],
              registry := ∅ }).2.2 ∧
    ∃ out, alidrive.Rename alidrive.onceInvalidBackend 2 "f" "new" model.Account.zero
        alidrive.St.init
      = some (out, { refreshedAccount with ID := 1 },
          { hist := [.update model.Account.zero "f" "new", .token model.Account.zero,
                     .dbSave refreshedAccount,
                     .update { refreshedAccount with ID := 1 } "f" "new"],
            registry := model.RegisterAccount ∅ { refreshedAccount with ID := 1 } }) :=
  ⟨((token_invalid_retry pikpak.twiceInvalidBackend alidrive.onceInvalidBackend 2
      model.Account.zero refreshedAccount).1 "u" .Get none none none pikpak.St.init
      { hist := [.request model.Account.zero "u" .Get none none,
                 .token model.Account.zero], registry := ∅ }
      (by intro code; exact pikpak.Method.noConfusion) rfl rfl rfl).1,
   ((token_invalid_retry pikpak.twiceInvalidBackend alidrive.onceInvalidBackend 2
      model.Account.zero refreshedAccount).2.2.1 "f" "new" alidrive.St.init
      { hist := [.update model.Account.zero "f" "new", .token model.Account.zero],
        registry := ∅ }
      rfl rfl rfl).1,
   ((token_invalid_retry pikpak.twiceInvalidBackend alidrive.onceInvalidBackend 0
      model.Account.zero refreshedAccount).2.2.1 "f" "new" alidrive.St.init
      { hist := [.update model.Account.zero "f" "new", .token model.Account.zero],
        registry := ∅ }
      rfl rfl rfl).2.2 (Or.inr (by decide))⟩

end drivers

namespace base

theorem GetCache_SetCache (c : Cache) (path : String) (obj : CacheVal)
    (account : model.Account) :
    GetCache (SetCache c path obj account) path account = some obj := by
  simp [GetCache, SetCache]

theorem GetCache_DeleteCache (c : Cache) (path : String) (account : model.Account) :
    GetCache (DeleteCache c path account) path account = none := by
  simp [GetCache, DeleteCache]

end base

namespace ftp

theorem ftp_Files_hit (U : utils.Funcs) (srv : Server) (path : String)
    (account : model.Account) (st : St) (listing : List model.File)
    (h : base.GetCache st.cache (U.ParsePath path) account = some (.files listing)) :
    Files U srv path account st = (.ok listing, st) := by
  simp [Files, h]

theorem Files_login_failed (U : utils.Funcs) (srv : Server) (path : String)
    (account : model.Account) (st : St) (err : base.Error)
    (h : base.GetCache st.cache (U.ParsePath path) account = none)
    (hl : srv.login st.hist account = some err) :
    Files U srv path account st = (.error err, st.push (.login account)) := by
  simp [Files, h, hl]

theorem Files_list_failed (U : utils.Funcs) (srv : Server) (path : String)
    (account : model.Account) (st : St) (err : base.Error)
    (h : base.GetCache st.cache (U.ParsePath path) account = none)
    (hl : srv.login st.hist account = none)
    (hs : srv.list (st.hist ++ [.login account])
      (U.Join [account.RootFolder, U.ParsePath path]) = .error err) :
    Files U srv path account st
      = (.error err, ((st.push (.login account)).push
          (.list (U.Join [account.RootFolder, U.ParsePath path]))).push .quit) := by
  simp [Files, h, hl, St.push, hs]

theorem ftp_Files_fetched (U : utils.Funcs) (srv : Server) (path : String)
    (account : model.Account) (st : St) (entries : List Entry)
    (h : base.GetCache st.cache (U.ParsePath path) account = none)
    (hl : srv.login st.hist account = none)
    (hs : srv.list (st.hist ++ [.login account])
      (U.Join [account.RootFolder, U.ParsePath path]) = .ok entries) :
    Files U srv path account st
      = (.ok (entries.map (toFile U)),
          { hist := st.hist ++ [.login account,
              .list (U.Join [account.RootFolder, U.ParsePath path]), .quit],
            cache := if entries = [] then st.cache
              else base.SetCache st.cache (U.ParsePath path)
                (.files (entries.map (toFile U))) account }) := by
  by_cases he : entries = []
  · simp [Files, h, hl, St.push, hs, he]
  · have hpos : 0 < entries.length := List.length_pos.mpr he
    simp [Files, h, hl, St.push, hs, he, hpos]

end ftp

namespace onedrive

theorem one_Files_hit {ρ : Type} (U : utils.Funcs) (R : Rest ρ) (path : String)
    (account : model.Account) (st : St) (listing : List model.File)
    (h : base.GetCache st.cache (U.ParsePath path) account = some (.files listing)) :
    Files U R path account st = (.ok listing, st) := by
  simp [Files, h]

theorem Files_failed {ρ : Type} (U : utils.Funcs) (R : Rest ρ) (path : String)
    (account : model.Account) (st : St) (err : base.Error)
    (h : base.GetCache st.cache (U.ParsePath path) account = none)
    (hs : R.GetFiles st.hist account (U.ParsePath path) = .error err) :
    Files U R path account st
      = (.error err, st.push (.getFiles account (U.ParsePath path))) := by
  simp [Files, h, hs]

theorem one_Files_fetched {ρ : Type} (U : utils.Funcs) (R : Rest ρ) (path : String)
    (account : model.Account) (st : St) (rawFiles : List ρ)
    (h : base.GetCache st.cache (U.ParsePath path) account = none)
    (hs : R.GetFiles st.hist account (U.ParsePath path) = .ok rawFiles) :
    Files U R path account st
      = (.ok (rawFiles.map R.FormatFile),
          { hist := st.hist ++ [.getFiles account (U.ParsePath path)],
            cache := if rawFiles.isEmpty then st.cache
              else base.SetCache st.cache (U.ParsePath path)
                (.files (rawFiles.map R.FormatFile)) account }) := by
  cases rawFiles with
  | nil => simp [Files, h, St.push, hs]
  | cons x xs => simp [Files, h, St.push, hs]

end onedrive

namespace utils

theorem std_ParsePath_videos : std.ParsePath "/videos" = "/videos" := by decide

theorem std_ParsePath_file : std.ParsePath "/videos/A.mp4" = "/videos/A.mp4" := by decide

theorem std_ParsePath_root : std.ParsePath "/" = "/" := by decide

theorem std_Dir_file : std.Dir "/videos/A.mp4" = "/videos" := by decide

end utils

namespace ftp

theorem toInt64_small (n : Nat) (h : n < 2 ^ 63) : toInt64 n = (n : Int) := by
  have h1 : n % 2 ^ 64 = n := Nat.mod_eq_of_lt (by omega)
  unfold toInt64
  rw [h1, if_pos h]

theorem toFile_fields (U : utils.Funcs) (entries : List Entry) :
    entries.map (toFile U)
      = entries.map (fun entry =>
          ({ Id := "", Name := entry.Name,
             Size := if entry.Size % 2 ^ 64 < 2 ^ 63 then ((entry.Size % 2 ^ 64 : Nat) : Int)
                     else ((entry.Size % 2 ^ 64 : Nat) : Int) - 2 ^ 64,
             Type_ := if entry.Type_ = EntryType.EntryTypeFolder then conf.FOLDER
                      else U.GetFileType (filepath.Ext entry.Name),
             Driver := "FTP", UpdatedAt := some entry.Time, Thumbnail := "", Url := "" }
            : model.File)) := rfl

theorem toFile_names (U : utils.Funcs) (entries : List Entry) :
    (entries.map (toFile U)).map (fun f => f.Name) = entries.map (fun entry => entry.Name) := by
  simp [toFile]

theorem toFile_sizes (U : utils.Funcs) (entries : List Entry)
    (h : ∀ entry ∈ entries, entry.Size < 2 ^ 63) :
    (entries.map (toFile U)).map (fun f => f.Size)
      = entries.map (fun entry => (entry.Size : Int)) := by
  rw [List.map_map]
  apply List.map_congr_left
  intro entry he
  simp [toFile, toInt64_small entry.Size (h entry he)]

end ftp

namespace drivers

/-- C3. When the cache holds a listing under the normalised path of the
directory for the account, `Files` of FTP and of Onedrive returns exactly
that listing, makes no round trip to the backend (the history is unchanged:
no login, no list request, no fetch) and leaves the cache unchanged. -/
theorem Files_served_from_cache {ρ : Type} (U : utils.Funcs) (srv : ftp.Server)
    (R : onedrive.Rest ρ) (path : String) (account : model.Account)
    (listing : List model.File) (fst : ftp.St) (ost : onedrive.St)
    (hne : listing ≠ [])
    (hf : base.GetCache fst.cache (U.ParsePath path) account = some (.files listing))
    (ho : base.GetCache ost.cache (U.ParsePath path) account = some (.files listing)) :
    ((ftp.Files U srv path account fst).1 = .ok listing ∧
      (ftp.Files U srv path account fst).2.hist = fst.hist ∧
      (ftp.Files U srv path account fst).2.cache = fst.cache) ∧
    ((onedrive.Files U R path account ost).1 = .ok listing ∧
      (onedrive.Files U R path account ost).2.hist = ost.hist ∧
      (onedrive.Files U R path account ost).2.cache = ost.cache) := by
  have _ := hne
  rw [ftp.ftp_Files_hit U srv path account fst listing hf,
    onedrive.one_Files_hit U R path account ost listing ho]
  exact ⟨⟨rfl, rfl, rfl⟩, ⟨rfl, rfl, rfl⟩⟩

/-- Witness for C3: "/videos" is cached as `[A.mp4]` for the account "disk". -/
theorem Files_served_from_cache_witness :
    (ftp.Files utils.std okServer "/videos" diskAccount cachedFtp).1
      = .ok [videoFile "A.mp4"] ∧
    (onedrive.Files utils.std okRest "/videos" diskAccount cachedOnedrive).2.hist = [] :=
  ⟨(Files_served_from_cache utils.std okServer okRest "/videos" diskAccount
      [videoFile "A.mp4"] cachedFtp cachedOnedrive (by simp)
      (by rw [utils.std_ParsePath_videos]; exact base.GetCache_SetCache _ _ _ _)
      (by rw [utils.std_ParsePath_videos]; exact base.GetCache_SetCache _ _ _ _)).1.1,
   (Files_served_from_cache utils.std okServer okRest "/videos" diskAccount
      [videoFile "A.mp4"] cachedFtp cachedOnedrive (by simp)
      (by rw [utils.std_ParsePath_videos]; exact base.GetCache_SetCache _ _ _ _)
      (by rw [utils.std_ParsePath_videos]; exact base.GetCache_SetCache _ _ _ _)).2.2.1⟩


/-- C4. When the cache has no entry under the normalised path: if the
backend fetch succeeds (FTP: login and list; Onedrive: `GetFiles`), `Files`
returns the fetched listing in backend order, and afterwards the cache holds
that listing under the normalised path if and only if the listing is
non-empty (for an empty listing the cache is unchanged); if the fetch fails
(FTP: the login or the list command; Onedrive: `GetFiles`), `Files` returns
the error and the cache is unchanged.  For FTP the returned listing has one
entry per server entry, in the server's order, with the server entry's name,
its size (as a signed 64-bit number), its modification time, the driver name
"FTP", and the kind `FOLDER` for a folder and the kind of the name's
extension otherwise; for Onedrive it is the raw listing, entry by entry
through `FormatFile`. -/
theorem Files_fetch_and_cache {ρ : Type} (U : utils.Funcs) (srv : ftp.Server)
    (R : onedrive.Rest ρ) (path : String) (account : model.Account)
    (fst : ftp.St) (ost : onedrive.St)
    (hf : base.GetCache fst.cache (U.ParsePath path) account = none)
    (ho : base.GetCache ost.cache (U.ParsePath path) account = none) :
    ((∀ entries, srv.login fst.hist account = none →
        srv.list (fst.hist ++ [.login account])
          (U.Join [account.RootFolder, U.ParsePath path]) = .ok entries →
        ∃ listing,
          listing = entries.map (fun entry =>
            ({ Id := "", Name := entry.Name,
               Size := if entry.Size % 2 ^ 64 < 2 ^ 63
                       then ((entry.Size % 2 ^ 64 : Nat) : Int)
                       else ((entry.Size % 2 ^ 64 : Nat) : Int) - 2 ^ 64,
               Type_ := if entry.Type_ = ftp.EntryType.EntryTypeFolder then conf.FOLDER
                        else U.GetFileType (filepath.Ext entry.Name),
               Driver := "FTP", UpdatedAt := some entry.Time, Thumbnail := "", Url := "" }
              : model.File)) ∧
          listing.map (fun f => f.Name) = entries.map (fun entry => entry.Name) ∧
          ((∀ entry ∈ entries, entry.Size < 2 ^ 63) →
            listing.map (fun f => f.Size) = entries.map (fun entry => (entry.Size : Int))) ∧
          (ftp.Files U srv path account fst).1 = .ok listing ∧
          (base.GetCache (ftp.Files U srv path account fst).2.cache (U.ParsePath path)
              account = some (.files listing)
            ↔ listing ≠ []) ∧
          (listing = [] → (ftp.Files U srv path account fst).2.cache = fst.cache)) ∧
      (∀ err, srv.login fst.hist account = some err →
        (ftp.Files U srv path account fst).1 = .error err ∧
        (ftp.Files U srv path account fst).2.cache = fst.cache) ∧
      (∀ err, srv.login fst.hist account = none →
        srv.list (fst.hist ++ [.login account])
          (U.Join [account.RootFolder, U.ParsePath path]) = .error err →
        (ftp.Files U srv path account fst).1 = .error err ∧
        (ftp.Files U srv path account fst).2.cache = fst.cache)) ∧
    ((∀ rawFiles, R.GetFiles ost.hist account (U.ParsePath path) = .ok rawFiles →
        (onedrive.Files U R path account ost).1 = .ok (rawFiles.map R.FormatFile) ∧
        (base.GetCache (onedrive.Files U R path account ost).2.cache (U.ParsePath path)
            account = some (.files (rawFiles.map R.FormatFile))
          ↔ rawFiles.map R.FormatFile ≠ []) ∧
        (rawFiles.map R.FormatFile = [] →
          (onedrive.Files U R path account ost).2.cache = ost.cache)) ∧
      (∀ err, R.GetFiles ost.hist account (U.ParsePath path) = .error err →
        (onedrive.Files U R path account ost).1 = .error err ∧
        (onedrive.Files U R path account ost).2.cache = ost.cache)) := by
  refine ⟨⟨?_, ?_, ?_⟩, ⟨?_, ?_⟩⟩
  · intro entries hl hs
    refine ⟨entries.map (ftp.toFile U), ftp.toFile_fields U entries,
      ftp.toFile_names U entries, ftp.toFile_sizes U entries, ?_⟩
    rw [ftp.ftp_Files_fetched U srv path account fst entries hf hl hs]
    refine ⟨rfl, ?_, ?_⟩
    · cases entries with
      | nil => simp [hf]
      | cons e es => simp [base.GetCache_SetCache]
    · intro he
      have : entries = [] := List.map_eq_nil_iff.mp he
      simp [this]
  · intro err hl
    rw [ftp.Files_login_failed U srv path account fst err hf hl]
    exact ⟨rfl, rfl⟩
  · intro err hl hs
    rw [ftp.Files_list_failed U srv path account fst err hf hl hs]
    exact ⟨rfl, rfl⟩
  · intro rawFiles hs
    rw [onedrive.one_Files_fetched U R path account ost rawFiles ho hs]
    refine ⟨rfl, ?_, ?_⟩
    · cases rawFiles with
      | nil => simp [ho]
      | cons e es => simp [base.GetCache_SetCache]
    · intro he
      have : rawFiles = [] := List.map_eq_nil_iff.mp he
      simp [this]
  · intro err hs
    rw [onedrive.Files_failed U R path account ost err ho hs]
    exact ⟨rfl, rfl⟩

/-- Witness for C4: nothing is cached.  The FTP server lists the folder
`docs` and the file `A.mp4` of 5 bytes, and `Files` returns exactly these two
entries, folder first, with their names, sizes, times and kinds; the Onedrive
backend lists `A.mp4`, `B.mp4`; and a server that refuses the login leaves
the cache as it was. -/
theorem Files_fetch_and_cache_witness :
    (ftp.Files utils.std mixedServer "/videos" diskAccount emptyFtp).1
      = .ok [{ Id := "", Name := "docs", Size := 0, Type_ := conf.FOLDER, Driver := "FTP",
               UpdatedAt := some 3, Thumbnail := "", Url := "" },
             { Id := "", Name := "A.mp4", Size := 5, Type_ := conf.VIDEO, Driver := "FTP",
               UpdatedAt := some 7, Thumbnail := "", Url := "" }] ∧
    (onedrive.Files utils.std okRest "/videos" diskAccount emptyOnedrive).1
      = .ok [videoFile "A.mp4", videoFile "B.mp4"] ∧
    (ftp.Files utils.std downServer "/videos" diskAccount emptyFtp).2.cache
      = emptyFtp.cache := by
  refine ⟨?_, ?_, ?_⟩
  · obtain ⟨listing, hl, _, _, hres, _⟩ :=
      (Files_fetch_and_cache utils.std mixedServer okRest "/videos" diskAccount emptyFtp
        emptyOnedrive rfl rfl).1.1
        [{ Name := "docs", Target := "", Type_ := .EntryTypeFolder, Size := 0, Time := 3 },
         { Name := "A.mp4", Target := "", Type_ := .EntryTypeFile, Size := 5, Time := 7 }]
        rfl rfl
    rw [hres, hl]
    rfl
  · exact ((Files_fetch_and_cache utils.std okServer okRest "/videos" diskAccount emptyFtp
      emptyOnedrive rfl rfl).2.1 _ rfl).1
  · exact ((Files_fetch_and_cache utils.std downServer okRest "/videos" diskAccount emptyFtp
      emptyOnedrive rfl rfl).1.2.1 _ rfl).2

end drivers

namespace ftp

theorem Delete_ok (U : utils.Funcs) (srv : Server) (path : String)
    (account : model.Account) (st : St)
    (h : (Delete U srv path account st).1 = none) :
    (Delete U srv path account st).2.cache
        = base.DeleteCache st.cache (U.Dir (U.ParsePath path)) account ∧
      (Delete U srv path account st).2.hist
        = st.hist ++ [.login account,
            .delete (U.Join [account.RootFolder, U.ParsePath path]), .quit] := by
  simp only [Delete] at h ⊢
  split at h
  · simp at h
  · next hl =>
    simp only [St.push] at h
    simp [hl, h, St.push]

theorem MakeDir_ok (U : utils.Funcs) (srv : Server) (path : String)
    (account : model.Account) (st : St)
    (h : (MakeDir U srv path account st).1 = none) :
    (MakeDir U srv path account st).2.cache
        = base.DeleteCache st.cache (U.Dir (U.ParsePath path)) account := by
  simp only [MakeDir] at h ⊢
  split at h
  · simp at h
  · next hl =>
    simp only [St.push] at h
    simp [hl, h, St.push]

theorem Move_ok (U : utils.Funcs) (srv : Server) (src dst : String)
    (account : model.Account) (st : St)
    (h : (Move U srv src dst account st).1 = none) :
    (Move U srv src dst account st).2.cache = st.cache := by
  simp only [Move] at h ⊢
  split at h
  · simp at h
  · next hl =>
    simp only [St.push] at h
    simp [hl, h, St.push]

theorem Upload_ok (U : utils.Funcs) (srv : Server) (file : FileStream)
    (account : model.Account) (st : St)
    (h : (Upload U srv file account st).1 = none) :
    (Upload U srv file account st).2.cache
        = base.DeleteCache st.cache (U.Dir file.ParentPath) account := by
  simp only [Upload] at h ⊢
  split at h
  · simp at h
  · next hl =>
    simp only [St.push] at h
    simp [hl, h, St.push]

/-- After a successful `MakeDir` or `Delete` the cache has no entry for the
parent directory `utils.Dir` of the normalised path. -/
theorem MakeDir_Delete_invalidate (U : utils.Funcs) (srv : Server) (path : String)
    (account : model.Account) (st : St) :
    ((MakeDir U srv path account st).1 = none →
      base.GetCache (MakeDir U srv path account st).2.cache
        (U.Dir (U.ParsePath path)) account = none) ∧
    ((Delete U srv path account st).1 = none →
      base.GetCache (Delete U srv path account st).2.cache
        (U.Dir (U.ParsePath path)) account = none) := by
  constructor
  · intro h
    rw [MakeDir_ok U srv path account st h]
    exact base.GetCache_DeleteCache _ _ _
  · intro h
    rw [(Delete_ok U srv path account st h).1]
    exact base.GetCache_DeleteCache _ _ _

theorem Files_miss_logs_in (U : utils.Funcs) (srv : Server) (path : String)
    (account : model.Account) (st : St)
    (h : base.GetCache st.cache (U.ParsePath path) account = none) :
    ∃ rest, (Files U srv path account st).2.hist = st.hist ++ (.login account :: rest) := by
  cases hl : srv.login st.hist account with
  | some err =>
    rw [Files_login_failed U srv path account st err h hl]
    exact ⟨[], rfl⟩
  | none =>
    cases hs : srv.list (st.hist ++ [.login account])
        (U.Join [account.RootFolder, U.ParsePath path]) with
    | error err =>
      rw [Files_list_failed U srv path account st err h hl hs]
      exact ⟨[.list (U.Join [account.RootFolder, U.ParsePath path]), .quit], by
        simp [St.push]⟩
    | ok entries =>
      rw [ftp_Files_fetched U srv path account st entries h hl hs]
      exact ⟨[.list (U.Join [account.RootFolder, U.ParsePath path]), .quit], rfl⟩

theorem Files_caches (U : utils.Funcs) (srv : Server) (path : String)
    (account : model.Account) (st : St) (listing : List model.File)
    (h : (Files U srv path account st).1 = .ok listing) (hne : listing ≠ []) :
    base.GetCache (Files U srv path account st).2.cache (U.ParsePath path) account
      = some (.files listing) := by
  cases hc : base.GetCache st.cache (U.ParsePath path) account with
  | some v =>
    cases v with
    | files l =>
      rw [ftp_Files_hit U srv path account st l hc] at h ⊢
      simp only [Except.ok.injEq] at h
      rw [← h]; exact hc
    | foreign =>
      simp [Files, hc] at h
      exact absurd h hne
  | none =>
    cases hl : srv.login st.hist account with
    | some err =>
      rw [Files_login_failed U srv path account st err hc hl] at h
      simp at h
    | none =>
      cases hs : srv.list (st.hist ++ [.login account])
          (U.Join [account.RootFolder, U.ParsePath path]) with
      | error err =>
        rw [Files_list_failed U srv path account st err hc hl hs] at h
        simp at h
      | ok entries =>
        rw [ftp_Files_fetched U srv path account st entries hc hl hs] at h ⊢
        simp only [Except.ok.injEq] at h
        have he : entries ≠ [] := by
          intro he; rw [he] at h; exact hne h.symm
        simp only [he, if_false, h]
        exact base.GetCache_SetCache _ _ _ _

end ftp

namespace drivers

/-- C5, at the failing inputs.  With "/videos" cached as `[A.mp4]`:
a `Move` of "/videos/A.mp4" to "/archive/A.mp4" that succeeds on the server
leaves the cache entry of the parent directory "/videos" of the source in
place (`Move` deletes the entries only when the rename failed); and an
`Upload` into "/videos" that succeeds leaves the entry of "/videos" in place
(it deletes the entry of `utils.Dir("/videos")`, the parent of the directory
uploaded into). -/
theorem Move_Upload_keep_stale_entry :
    ((ftp.Move utils.std okServer "/videos/A.mp4" "/archive/A.mp4" diskAccount
        cachedFtp).1 = none ∧
      utils.std.Dir "/videos/A.mp4" = "/videos" ∧
      base.GetCache (ftp.Move utils.std okServer "/videos/A.mp4" "/archive/A.mp4"
        diskAccount cachedFtp).2.cache "/videos" diskAccount
        = some (.files [videoFile "A.mp4"])) ∧
    ((ftp.Upload utils.std okServer
        { ParentPath := "/videos", Name := "C.mp4", Size := 1, MIMEType := "video/mp4" }
        diskAccount cachedFtp).1 = none ∧
      base.GetCache (ftp.Upload utils.std okServer
        { ParentPath := "/videos", Name := "C.mp4", Size := 1, MIMEType := "video/mp4" }
        diskAccount cachedFtp).2.cache "/videos" diskAccount
        = some (.files [videoFile "A.mp4"])) := by
  refine ⟨⟨rfl, by decide, ?_⟩, ⟨rfl, ?_⟩⟩
  · rw [ftp.Move_ok utils.std okServer _ _ diskAccount cachedFtp rfl]
    exact base.GetCache_SetCache _ _ _ _
  · rw [ftp.Upload_ok utils.std okServer _ diskAccount cachedFtp rfl]
    have hd : utils.std.Dir "/videos" = "/" := by decide
    simp only [hd, base.GetCache, base.DeleteCache, cachedFtp, base.SetCache]
    simp

/-- C6. After `Files("/videos")` has returned (and so cached) a non-empty
listing, a successful `Delete("/videos/A.mp4")` leaves no cache entry for
"/videos"; the next `Files("/videos")` therefore goes to the server again (it
logs in) and, when the server answers, returns the listing the server gives
then, whatever the old one was (login, list, quit are added to the history):
one entry per server entry, in the server's order, with its name, size,
modification time and kind. -/
theorem Delete_then_Files_refetches (U : utils.Funcs) (srv : ftp.Server)
    (account : model.Account) (st0 : ftp.St) (old : List model.File)
    (hp : U.ParsePath "/videos" = "/videos")
    (hd : U.Dir (U.ParsePath "/videos/A.mp4") = "/videos")
    (h0 : (ftp.Files U srv "/videos" account st0).1 = .ok old) (hne : old ≠ [])
    (hdel : (ftp.Delete U srv "/videos/A.mp4" account
      (ftp.Files U srv "/videos" account st0).2).1 = none) :
    base.GetCache (ftp.Files U srv "/videos" account st0).2.cache "/videos" account
      = some (.files old) ∧
    base.GetCache (ftp.Delete U srv "/videos/A.mp4" account
      (ftp.Files U srv "/videos" account st0).2).2.cache "/videos" account = none ∧
    (∃ rest, (ftp.Files U srv "/videos" account (ftp.Delete U srv "/videos/A.mp4" account
          (ftp.Files U srv "/videos" account st0).2).2).2.hist
        = (ftp.Delete U srv "/videos/A.mp4" account
            (ftp.Files U srv "/videos" account st0).2).2.hist
          ++ (.login account :: rest)) ∧
    ∀ entries,
      srv.login (ftp.Delete U srv "/videos/A.mp4" account
        (ftp.Files U srv "/videos" account st0).2).2.hist account = none →
      srv.list ((ftp.Delete U srv "/videos/A.mp4" account
          (ftp.Files U srv "/videos" account st0).2).2.hist ++ [.login account])
        (U.Join [account.RootFolder, "/videos"]) = .ok entries →
      (ftp.Files U srv "/videos" account (ftp.Delete U srv "/videos/A.mp4" account
          (ftp.Files U srv "/videos" account st0).2).2).1
        = .ok (entries.map (ftp.toFile U)) ∧
      (ftp.Files U srv "/videos" account (ftp.Delete U srv "/videos/A.mp4" account
          (ftp.Files U srv "/videos" account st0).2).2).2.hist
        = (ftp.Delete U srv "/videos/A.mp4" account
            (ftp.Files U srv "/videos" account st0).2).2.hist
          ++ [.login account, .list (U.Join [account.RootFolder, "/videos"]), .quit] ∧
      (ftp.Files U srv "/videos" account (ftp.Delete U srv "/videos/A.mp4" account
          (ftp.Files U srv "/videos" account st0).2).2).1
        = .ok (entries.map (fun entry =>
            ({ Id := "", Name := entry.Name,
               Size := if entry.Size % 2 ^ 64 < 2 ^ 63
                       then ((entry.Size % 2 ^ 64 : Nat) : Int)
                       else ((entry.Size % 2 ^ 64 : Nat) : Int) - 2 ^ 64,
               Type_ := if entry.Type_ = ftp.EntryType.EntryTypeFolder then conf.FOLDER
                        else U.GetFileType (filepath.Ext entry.Name),
               Driver := "FTP", UpdatedAt := some entry.Time, Thumbnail := "", Url := "" }
              : model.File))) := by
  have hc := ftp.Files_caches U srv "/videos" account st0 old h0 hne
  rw [hp] at hc
  have hm := (ftp.MakeDir_Delete_invalidate U srv "/videos/A.mp4" account
    (ftp.Files U srv "/videos" account st0).2).2 hdel
  rw [hd] at hm
  have hm' : base.GetCache (ftp.Delete U srv "/videos/A.mp4" account
      (ftp.Files U srv "/videos" account st0).2).2.cache (U.ParsePath "/videos") account
      = none := by rw [hp]; exact hm
  refine ⟨hc, hm, ftp.Files_miss_logs_in U srv "/videos" account _ hm', ?_⟩
  intro entries hl hs
  rw [ftp.ftp_Files_fetched U srv "/videos" account _ entries hm' hl (by rw [hp]; exact hs)]
  refine ⟨rfl, by simp [hp], ?_⟩
  rw [← ftp.toFile_fields U entries]

/-- Witness for C6: the server lists `A.mp4`, `B.mp4` before the delete and
`B.mp4` after it; the second `Files` returns `[B.mp4]`. -/
theorem Delete_then_Files_refetches_witness :
    (ftp.Files utils.std okServer "/videos" diskAccount
      (ftp.Delete utils.std okServer "/videos/A.mp4" diskAccount
        (ftp.Files utils.std okServer "/videos" diskAccount emptyFtp).2).2).1
      = .ok [videoFile "B.mp4"] :=
  ((Delete_then_Files_refetches utils.std okServer diskAccount emptyFtp
      ([videoEntry "A.mp4", videoEntry "B.mp4"].map (ftp.toFile utils.std))
      utils.std_ParsePath_videos (by decide) rfl (by simp) rfl).2.2.2
    [videoEntry "B.mp4"] rfl rfl).2.2

end drivers

namespace ftp

theorem ftp_File_root (U : utils.Funcs) (srv : Server) (path : String)
    (account : model.Account) (st : St) (h : U.ParsePath path = "/") :
    File U srv path account st
      = (.ok { Id := account.RootFolder, Name := account.Name, Size := 0,
               Type_ := conf.FOLDER, Driver := "FTP", UpdatedAt := account.UpdatedAt,
               Thumbnail := "", Url := "" }, st) := by
  simp [File, h, Config]

theorem ftp_File_inner (U : utils.Funcs) (srv : Server) (path : String)
    (account : model.Account) (st : St) (h : U.ParsePath path ≠ "/") :
    (∃ f, (File U srv path account st).1 = .ok f ∧
        f.Name = (filepath.Split (U.ParsePath path)).2) ∨
      (File U srv path account st).1 = .error .ErrPathNotFound ∨
      ∃ err, (Files U srv (filepath.Split (U.ParsePath path)).1 account st).1 = .error err ∧
        (File U srv path account st).1 = .error err := by
  simp only [File, beq_iff_eq, h, if_false]
  rcases hF : Files U srv (filepath.Split (U.ParsePath path)).1 account st with ⟨r, st'⟩
  cases r with
  | error err => exact Or.inr (Or.inr ⟨err, rfl, rfl⟩)
  | ok files =>
    cases hfind : files.find? (fun file => file.Name == (filepath.Split (U.ParsePath path)).2) with
    | none => right; left; simp [hfind]
    | some f =>
      left
      refine ⟨f, by simp [hfind], ?_⟩
      have := List.find?_some hfind
      simpa using this

end ftp

namespace onedrive

theorem one_File_root {ρ : Type} (U : utils.Funcs) (R : Rest ρ) (path : String)
    (account : model.Account) (st : St) (h : U.ParsePath path = "/") :
    File U R path account st
      = (.ok { Id := account.RootFolder, Name := account.Name, Size := 0,
               Type_ := conf.FOLDER, Driver := "Onedrive", UpdatedAt := account.UpdatedAt,
               Thumbnail := "", Url := "" }, st) := by
  simp [File, h, Config]

theorem one_File_inner {ρ : Type} (U : utils.Funcs) (R : Rest ρ) (path : String)
    (account : model.Account) (st : St) (h : U.ParsePath path ≠ "/") :
    (∃ f, (File U R path account st).1 = .ok f ∧
        f.Name = (filepath.Split (U.ParsePath path)).2) ∨
      (File U R path account st).1 = .error .ErrPathNotFound ∨
      ∃ err, (Files U R (filepath.Split (U.ParsePath path)).1 account st).1 = .error err ∧
        (File U R path account st).1 = .error err := by
  simp only [File, beq_iff_eq, h, if_false]
  rcases hF : Files U R (filepath.Split (U.ParsePath path)).1 account st with ⟨r, st'⟩
  cases r with
  | error err => exact Or.inr (Or.inr ⟨err, rfl, rfl⟩)
  | ok files =>
    cases hfind : files.find? (fun file => file.Name == (filepath.Split (U.ParsePath path)).2) with
    | none => right; left; simp [hfind]
    | some f =>
      left
      refine ⟨f, by simp [hfind], ?_⟩
      have := List.find?_some hfind
      simpa using this

end onedrive

namespace drivers

/-- C7 as stated fails at two inputs.  For the root path "/" `File` returns
the synthetic root folder, whose name is the account name "disk" and not the
final segment of the path (which is empty); and for "/videos/A.mp4" on a
server that refuses the login `File` fails with the login error, which is
not `ErrPathNotFound`. -/
theorem File_root_and_login_error :
    ((ftp.File utils.std okServer "/" diskAccount emptyFtp).1
        = .ok { Id := "/", Name := "disk", Size := 0, Type_ := conf.FOLDER,
                Driver := "FTP", UpdatedAt := none, Thumbnail := "", Url := "" } ∧
      (filepath.Split (utils.std.ParsePath "/")).2 = "" ∧ (filepath.Split "/").2 = "") ∧
    (ftp.File utils.std downServer "/videos/A.mp4" diskAccount emptyFtp).1
      = .error (.msg "530 Login incorrect") := by
  refine ⟨⟨?_, by decide, by decide⟩, ?_⟩
  · rw [ftp.ftp_File_root utils.std okServer "/" diskAccount emptyFtp (by decide)]
    rfl
  · rfl

/-- C7, amended.  For every account and path, `File` of FTP and of Onedrive
returns the synthetic root folder named after the account when the
normalised path is "/"; otherwise it either returns an entry whose name is
the final segment of the normalised path, or fails with `ErrPathNotFound`,
or fails with the error with which listing the parent directory failed. -/
theorem File_name_or_error {ρ : Type} (U : utils.Funcs) (srv : ftp.Server)
    (R : onedrive.Rest ρ) (path : String) (account : model.Account)
    (fst : ftp.St) (ost : onedrive.St) :
    ((U.ParsePath path = "/" →
        ∃ f, (ftp.File U srv path account fst).1 = .ok f ∧ f.Name = account.Name ∧
          f.Type_ = conf.FOLDER) ∧
      (U.ParsePath path ≠ "/" →
        (∃ f, (ftp.File U srv path account fst).1 = .ok f ∧
          f.Name = (filepath.Split (U.ParsePath path)).2) ∨
        (ftp.File U srv path account fst).1 = .error .ErrPathNotFound ∨
        ∃ err, (ftp.Files U srv (filepath.Split (U.ParsePath path)).1 account fst).1
            = .error err ∧
          (ftp.File U srv path account fst).1 = .error err)) ∧
    ((U.ParsePath path = "/" →
        ∃ f, (onedrive.File U R path account ost).1 = .ok f ∧ f.Name = account.Name ∧
          f.Type_ = conf.FOLDER) ∧
      (U.ParsePath path ≠ "/" →
        (∃ f, (onedrive.File U R path account ost).1 = .ok f ∧
          f.Name = (filepath.Split (U.ParsePath path)).2) ∨
        (onedrive.File U R path account ost).1 = .error .ErrPathNotFound ∨
        ∃ err, (onedrive.Files U R (filepath.Split (U.ParsePath path)).1 account ost).1
            = .error err ∧
          (onedrive.File U R path account ost).1 = .error err)) := by
  refine ⟨⟨?_, ftp.ftp_File_inner U srv path account fst⟩,
    ⟨?_, onedrive.one_File_inner U R path account ost⟩⟩
  · intro h
    rw [ftp.ftp_File_root U srv path account fst h]
    exact ⟨_, rfl, rfl, rfl⟩
  · intro h
    rw [onedrive.one_File_root U R path account ost h]
    exact ⟨_, rfl, rfl, rfl⟩

/-- Witness for C7: the root path, and the path "/videos/A.mp4". -/
theorem File_name_or_error_witness :
    (∃ f, (ftp.File utils.std okServer "/" diskAccount emptyFtp).1 = .ok f ∧
      f.Name = "disk" ∧ f.Type_ = conf.FOLDER) ∧
    ((∃ f, (onedrive.File utils.std okRest "/videos/A.mp4" diskAccount emptyOnedrive).1
          = .ok f ∧ f.Name = (filepath.Split (utils.std.ParsePath "/videos/A.mp4")).2) ∨
      (onedrive.File utils.std okRest "/videos/A.mp4" diskAccount emptyOnedrive).1
        = .error .ErrPathNotFound ∨
      ∃ err, (onedrive.Files utils.std okRest
            (filepath.Split (utils.std.ParsePath "/videos/A.mp4")).1 diskAccount
            emptyOnedrive).1 = .error err ∧
        (onedrive.File utils.std okRest "/videos/A.mp4" diskAccount emptyOnedrive).1
          = .error err) :=
  ⟨(File_name_or_error utils.std okServer okRest "/" diskAccount emptyFtp
      emptyOnedrive).1.1 (by decide),
   (File_name_or_error utils.std okServer okRest "/videos/A.mp4" diskAccount emptyFtp
      emptyOnedrive).2.2 (by decide)⟩

end drivers

namespace alidrive

theorem RefreshToken_refused (be : Backend) (account : model.Account) (st : St)
    (he : (be.token st.hist account).err = none)
    (hc : (be.token st.hist account).e.Code ≠ "") :
    RefreshToken be account st
      = (some (.msg ("failed to refresh token: " ++ (be.token st.hist account).e.Message)),
          { account with Status := (be.token st.hist account).e.Message },
          st.push (.token account)) := by
  simp [RefreshToken, he, hc]

end alidrive

namespace pikpak

theorem Login_refused (be : Backend) (account : model.Account) (st : St)
    (he : (be.signin st.hist account).err = none)
    (hc : (be.signin st.hist account).e.ErrorCode ≠ 0) :
    Login be account st
      = (some (.msg (be.signin st.hist account).e.Error),
          { account with Status := (be.signin st.hist account).e.Error },
          st.push (.signin account)) := by
  simp [Login, he, hc]

theorem RefreshToken_falls_back (be : Backend) (account : model.Account) (st : St)
    (he : (be.token st.hist account).err = none)
    (hc : (be.token st.hist account).e.ErrorCode = 4126) :
    RefreshToken be account st = Login be account (st.push (.token account)) := by
  simp [RefreshToken, he, hc]

end pikpak

namespace drivers

/-- C11 as stated fails for PikPak `RefreshToken`.  Answered with the error
code 4126 it signs in again, and when the sign-in succeeds it returns no
error and sets the status to "work"; answered with another non-zero error
code (4122, "too many requests") it also returns no error and sets the
status to "work". -/
theorem pikpak_refresh_error_reported_as_work :
    ((pikpak.expiredRefreshBackend.token [] model.Account.zero).e.ErrorCode = 4126 ∧
      (pikpak.RefreshToken pikpak.expiredRefreshBackend model.Account.zero
        pikpak.St.init).1 = none ∧
      (pikpak.RefreshToken pikpak.expiredRefreshBackend model.Account.zero
        pikpak.St.init).2.1.Status = "work") ∧
    ((pikpak.refusingBackend.token [] model.Account.zero).e.ErrorCode = 4122 ∧
      (pikpak.RefreshToken pikpak.refusingBackend model.Account.zero
        pikpak.St.init).1 = none ∧
      (pikpak.RefreshToken pikpak.refusingBackend model.Account.zero
        pikpak.St.init).2.1.Status = "work") := by
  refine ⟨⟨rfl, rfl, rfl⟩, ⟨rfl, rfl, rfl⟩⟩

/-- C11, amended.  When the backend answers AliDrive `RefreshToken` with a
non-empty error code, or PikPak `Login` with a non-zero error code, the
function returns a non-nil error and sets the account's status to the
backend's error text (so not to "work", unless that is the error text), and
leaves the tokens as they were.  When the backend answers PikPak
`RefreshToken` with the error code 4126, `RefreshToken` is `Login` run after
the token call: it fails, with the sign-in's error text as status, exactly
when the sign-in is answered with an error. -/
theorem refresh_error_sets_status (abe : alidrive.Backend) (pbe : pikpak.Backend)
    (account : model.Account) (ast : alidrive.St) (pst : pikpak.St) :
    ((abe.token ast.hist account).err = none →
      (abe.token ast.hist account).e.Code ≠ "" →
      (alidrive.RefreshToken abe account ast).1
        = some (.msg ("failed to refresh token: " ++ (abe.token ast.hist account).e.Message)) ∧
      (alidrive.RefreshToken abe account ast).2.1.Status
        = (abe.token ast.hist account).e.Message ∧
      ((abe.token ast.hist account).e.Message ≠ "work" →
        (alidrive.RefreshToken abe account ast).2.1.Status ≠ "work") ∧
      (alidrive.RefreshToken abe account ast).2.1.AccessToken = account.AccessToken ∧
      (alidrive.RefreshToken abe account ast).2.1.RefreshToken = account.RefreshToken) ∧
    ((pbe.signin pst.hist account).err = none →
      (pbe.signin pst.hist account).e.ErrorCode ≠ 0 →
      (pikpak.Login pbe account pst).1 = some (.msg (pbe.signin pst.hist account).e.Error) ∧
      (pikpak.Login pbe account pst).2.1.Status = (pbe.signin pst.hist account).e.Error ∧
      ((pbe.signin pst.hist account).e.Error ≠ "work" →
        (pikpak.Login pbe account pst).2.1.Status ≠ "work") ∧
      (pikpak.Login pbe account pst).2.1.AccessToken = account.AccessToken ∧
      (pikpak.Login pbe account pst).2.1.RefreshToken = account.RefreshToken) ∧
    ((pbe.token pst.hist account).err = none →
      (pbe.token pst.hist account).e.ErrorCode = 4126 →
      pikpak.RefreshToken pbe account pst
        = pikpak.Login pbe account (pst.push (.token account)) ∧
      ((pbe.signin (pst.hist ++ [.token account]) account).err = none →
        (pbe.signin (pst.hist ++ [.token account]) account).e.ErrorCode ≠ 0 →
        (pikpak.RefreshToken pbe account pst).1
          = some (.msg (pbe.signin (pst.hist ++ [.token account]) account).e.Error) ∧
        (pikpak.RefreshToken pbe account pst).2.1.Status
          = (pbe.signin (pst.hist ++ [.token account]) account).e.Error)) := by
  refine ⟨?_, ?_, ?_⟩
  · intro he hc
    rw [alidrive.RefreshToken_refused abe account ast he hc]
    exact ⟨rfl, rfl, fun h => h, rfl, rfl⟩
  · intro he hc
    rw [pikpak.Login_refused pbe account pst he hc]
    exact ⟨rfl, rfl, fun h => h, rfl, rfl⟩
  · intro he hc
    refine ⟨pikpak.RefreshToken_falls_back pbe account pst he hc, ?_⟩
    intro he' hc'
    rw [pikpak.RefreshToken_falls_back pbe account pst he hc,
      pikpak.Login_refused pbe account (pst.push (.token account)) he' hc']
    exact ⟨rfl, rfl⟩

/-- Witness for C11: AliDrive refused with "refresh token expired", PikPak
answered 4126 and then refused at the sign-in with "wrong password". -/
theorem refresh_error_sets_status_witness :
    (alidrive.RefreshToken alidrive.refusingBackend model.Account.zero
        alidrive.St.init).2.1.Status = "refresh token expired" ∧
    (pikpak.Login pikpak.lockedOutBackend model.Account.zero pikpak.St.init).2.1.Status
      = "wrong password" ∧
    (pikpak.RefreshToken pikpak.lockedOutBackend model.Account.zero pikpak.St.init).1
      = some (.msg "wrong password") :=
  ⟨((refresh_error_sets_status alidrive.refusingBackend pikpak.lockedOutBackend
      model.Account.zero alidrive.St.init pikpak.St.init).1 rfl (by decide)).2.1,
   ((refresh_error_sets_status alidrive.refusingBackend pikpak.lockedOutBackend
      model.Account.zero alidrive.St.init pikpak.St.init).2.1 rfl (by decide)).2.1,
   (((refresh_error_sets_status alidrive.refusingBackend pikpak.lockedOutBackend
      model.Account.zero alidrive.St.init pikpak.St.init).2.2 rfl rfl).2 rfl
        (by decide)).1⟩

end drivers

namespace model

/-- C14. When the durable store rejects the operation, `CreateAccount`,
`SaveAccount` and `DeleteAccount` (rejected at the lookup or at the delete)
return the store's error and leave the registry unchanged; when the store
accepts it, `CreateAccount` and `SaveAccount` return no error and the name
maps to the account as written, and `DeleteAccount` returns no error and the
name of the deleted record has no entry. -/
theorem persist_then_update (m : AccountsMap) (account record : Account)
    (text : String) (id newId : Nat) (updatedAt : Option Nat) (cron : conf.Cron)
    (dbFirst : Nat → DBFind) (dbDelete : Account → Option String) :
    ((CreateAccount (.failed text) m account).1 = some (.msg text) ∧
      (CreateAccount (.failed text) m account).2.2 = m ∧
      (CreateAccount (.stored newId updatedAt) m account).1 = none ∧
      (CreateAccount (.stored newId updatedAt) m account).2.2.lookup account.Name
        = some { account with ID := newId, UpdatedAt := updatedAt }) ∧
    ((SaveAccount (.failed text) m account).1 = some (.msg text) ∧
      (SaveAccount (.failed text) m account).2.2 = m ∧
      (SaveAccount (.stored newId updatedAt) m account).1 = none ∧
      (SaveAccount (.stored newId updatedAt) m account).2.2.lookup account.Name
        = some { account with ID := newId, UpdatedAt := updatedAt }) ∧
    ((dbFirst id = .failed text →
        (DeleteAccount dbFirst dbDelete m cron id).1 = some (.msg text) ∧
        (DeleteAccount dbFirst dbDelete m cron id).2.1 = m) ∧
      (dbFirst id = .found record → dbDelete record = some text →
        (DeleteAccount dbFirst dbDelete m cron id).1 = some (.msg text) ∧
        (DeleteAccount dbFirst dbDelete m cron id).2.1 = m) ∧
      (dbFirst id = .found record → dbDelete record = none →
        (DeleteAccount dbFirst dbDelete m cron id).1 = none ∧
        (DeleteAccount dbFirst dbDelete m cron id).2.1.lookup record.Name = none ∧
        (∀ other, other ≠ record.Name →
          (DeleteAccount dbFirst dbDelete m cron id).2.1.lookup other = m.lookup other))) := by
  refine ⟨⟨rfl, rfl, rfl, ?_⟩, ⟨rfl, rfl, rfl, ?_⟩, ⟨?_, ?_, ?_⟩⟩
  · simp only [CreateAccount, RegisterAccount]
    exact AList.lookup_insert m
  · simp only [SaveAccount, RegisterAccount]
    exact AList.lookup_insert m
  · intro h
    simp [DeleteAccount, h]
  · intro h hd
    simp [DeleteAccount, h, hd]
  · intro h hd
    refine ⟨by simp [DeleteAccount, h, hd], ?_, ?_⟩
    · simp only [DeleteAccount, h, hd]
      exact AList.lookup_erase _ _
    · intro other hne
      simp only [DeleteAccount, h, hd]
      exact AList.lookup_erase_ne hne

/-- Witness for C14: the registry holds "a" with record id 7; the store finds
the record and deletes it, after which "a" has no entry; a store that does
not find the record leaves the registry alone. -/
theorem persist_then_update_witness :
    (DeleteAccount (fun _ => .found { Account.zero with Name := "a", ID := 7 })
        (fun _ => none) (RegisterAccount ∅ { Account.zero with Name := "a", ID := 7 })
        [] 7).2.1.lookup "a" = none ∧
    (DeleteAccount (fun _ => .failed "record not found") (fun _ => none)
        (RegisterAccount ∅ { Account.zero with Name := "a", ID := 7 }) [] 7).2.1
      = RegisterAccount ∅ { Account.zero with Name := "a", ID := 7 } :=
  ⟨((persist_then_update (RegisterAccount ∅ { Account.zero with Name := "a", ID := 7 })
      Account.zero { Account.zero with Name := "a", ID := 7 } "" 7 0 none []
      (fun _ => .found { Account.zero with Name := "a", ID := 7 })
      (fun _ => none)).2.2.2.2 rfl rfl).2.1,
   ((persist_then_update (RegisterAccount ∅ { Account.zero with Name := "a", ID := 7 })
      Account.zero Account.zero "record not found" 7 0 none []
      (fun _ => .failed "record not found") (fun _ => none)).2.2.1 rfl).2⟩

end model

namespace onedrive

theorem refreshJob_absent (A : Auth) (name : String) (w : World)
    (h : name ∉ w.registry) (hlen : model.AccountsMap.len w.registry ≠ 1) :
    refreshJob A name w = w := by
  have hl : w.registry.lookup name = none := AList.lookup_eq_none.mpr h
  simp [refreshJob, model.GetAccount, hlen, hl]

theorem refreshJob_lone (A : Auth) (name k : String) (a : model.Account) (w : World)
    (h : w.registry.entries = [⟨k, a⟩]) :
    refreshJob A name w
      = { hist := w.hist ++ [.refreshToken a, .dbSave (A.RefreshToken w.hist a).2],
          registry := (model.SaveAccount
            (A.dbSave (w.hist ++ [.refreshToken a]) (A.RefreshToken w.hist a).2)
            w.registry (A.RefreshToken w.hist a).2).2.2,
          cron := w.cron } := by
  simp [refreshJob, model.GetAccount, model.AccountsMap.len, h]

end onedrive

namespace drivers

/-- C12 as stated fails.  The registry holds the single account "other" and
no account named "gone"; the refresh job scheduled for "gone" (entry 1) fires
and is not a no-op: `GetAccount` resolves any name to the only account, so
the job refreshes the token of "other" and saves it, and the registered
account "other" is changed. -/
theorem refreshJob_refreshes_lone_account :
    "gone" ∉ loneWorld.registry ∧
    onedrive.fire okAuth 1 loneWorld = onedrive.refreshJob okAuth "gone" loneWorld ∧
    (onedrive.refreshJob okAuth "gone" loneWorld).hist
      = [.refreshToken { model.Account.zero with Name := "other" },
         .dbSave { model.Account.zero with Name := "other", Status := "work",
                                           AccessToken := "fresh" }] ∧
    (onedrive.refreshJob okAuth "gone" loneWorld).registry.lookup "other"
      = some { model.Account.zero with Name := "other", Status := "work",
                                       AccessToken := "fresh" } ∧
    loneWorld.registry.lookup "other" = some { model.Account.zero with Name := "other" } := by
  refine ⟨by decide, rfl, rfl, rfl, rfl⟩

/-- C12, amended.  When no account has the name the Onedrive refresh job was
scheduled for and the registry does not hold exactly one account, firing the
job is a no-op: no token is refreshed, nothing is persisted (the history is
unchanged) and the registry and the scheduler are unchanged.  When the
registry holds exactly one account, of whatever name, the job refreshes the
token of that account and then saves it. -/
theorem refreshJob_noop_unless_lone (A : onedrive.Auth) (name : String)
    (w : onedrive.World) :
    (name ∉ w.registry → model.AccountsMap.len w.registry ≠ 1 →
      onedrive.refreshJob A name w = w ∧
      (onedrive.refreshJob A name w).hist = w.hist ∧
      (onedrive.refreshJob A name w).registry = w.registry) ∧
    (∀ k a, w.registry.entries = [⟨k, a⟩] →
      (onedrive.refreshJob A name w).hist
        = w.hist ++ [.refreshToken a, .dbSave (A.RefreshToken w.hist a).2]) := by
  constructor
  · intro h hlen
    rw [onedrive.refreshJob_absent A name w h hlen]
    exact ⟨rfl, rfl, rfl⟩
  · intro k a h
    rw [onedrive.refreshJob_lone A name k a w h]

/-- Witness for C12: with the two accounts "a" and "b" registered, the job
scheduled for "gone" changes nothing; with the single account "other" it
refreshes and saves that account. -/
theorem refreshJob_noop_unless_lone_witness :
    onedrive.refreshJob okAuth "gone" pairWorld = pairWorld ∧
    (onedrive.refreshJob okAuth "gone" loneWorld).hist
      = loneWorld.hist ++ [.refreshToken { model.Account.zero with Name := "other" },
          .dbSave (okAuth.RefreshToken loneWorld.hist
            { model.Account.zero with Name := "other" }).2] :=
  ⟨((refreshJob_noop_unless_lone okAuth "gone" pairWorld).1 (by decide) (by decide)).1,
   (refreshJob_noop_unless_lone okAuth "gone" loneWorld).2 "other" _ rfl⟩

end drivers

namespace model

theorem KeyLE_total (orderBy : String) (a b : File) :
    KeyLE orderBy a b ∨ KeyLE orderBy b a := by
  unfold KeyLE
  split_ifs
  · exact le_total _ _
  · exact le_total _ _
  · exact le_total _ _

theorem KeyLE_trans (orderBy : String) (a b c : File)
    (h1 : KeyLE orderBy a b) (h2 : KeyLE orderBy b c) : KeyLE orderBy a c := by
  unfold KeyLE at *
  split_ifs at *
  · exact le_trans h1 h2
  · exact le_trans h1 h2
  · exact le_trans h1 h2

theorem Before_total (account : Account) (a b : File) :
    Before account a b ∨ Before account b a := by
  unfold Before
  split_ifs
  · exact KeyLE_total _ b a
  · exact KeyLE_total _ a b

theorem Before_trans (account : Account) (a b c : File)
    (h1 : Before account a b) (h2 : Before account b c) : Before account a c := by
  unfold Before at *
  split_ifs at *
  · exact KeyLE_trans _ c b a h2 h1
  · exact KeyLE_trans _ a b c h1 h2

theorem SortFiles_perm (files : List File) (account : Account) :
    (SortFiles files account).Perm files := by
  unfold SortFiles
  split_ifs
  · exact List.perm_insertionSort _ _
  · exact List.Perm.refl _

theorem SortFiles_sorted (files : List File) (account : Account)
    (h : account.OrderBy = "name" ∨ account.OrderBy = "size" ∨
      account.OrderBy = "updated_at") :
    List.Sorted (Before account) (SortFiles files account) := by
  unfold SortFiles
  rw [if_pos h]
  haveI : IsTotal File (Before account) := ⟨Before_total account⟩
  haveI : IsTrans File (Before account) := ⟨Before_trans account⟩
  exact List.sorted_insertionSort _ _

end model

namespace ftp

theorem ftp_Path_file (U : utils.Funcs) (srv : Server) (path : String)
    (account : model.Account) (st : St) (f : model.File)
    (h : (File U srv path account st).1 = .ok f) (hd : f.IsDir = false) :
    (Path U srv path account st).1 = .ok (some f, []) := by
  rcases hF : File U srv path account st with ⟨r, st'⟩
  rw [hF] at h
  simp only at h
  subst h
  simp [Path, hF, hd]

theorem ftp_Path_dir (U : utils.Funcs) (srv : Server) (path : String)
    (account : model.Account) (st : St) (f : model.File) (files : List model.File)
    (h : (File U srv path account st).1 = .ok f) (hd : f.IsDir = true)
    (hl : (Files U srv path account (File U srv path account st).2).1 = .ok files) :
    (Path U srv path account st).1 = .ok (none, model.SortFiles files account) := by
  rcases hF : File U srv path account st with ⟨r, st'⟩
  rw [hF] at h hl
  simp only at h hl
  subst h
  rcases hL : Files U srv path account st' with ⟨r', st''⟩
  rw [hL] at hl
  simp only at hl
  subst hl
  simp [Path, hF, hd, hL]

end ftp

namespace onedrive

theorem one_Path_file {ρ : Type} (U : utils.Funcs) (R : Rest ρ) (path : String)
    (account : model.Account) (st : St) (f : model.File)
    (h : (File U R path account st).1 = .ok f) (hd : f.IsDir = false) :
    (Path U R path account st).1 = .ok (some f, []) := by
  rcases hF : File U R path account st with ⟨r, st'⟩
  rw [hF] at h
  simp only at h
  subst h
  simp [Path, hF, hd]

theorem one_Path_dir {ρ : Type} (U : utils.Funcs) (R : Rest ρ) (path : String)
    (account : model.Account) (st : St) (f : model.File) (files : List model.File)
    (h : (File U R path account st).1 = .ok f) (hd : f.IsDir = true)
    (hl : (Files U R path account (File U R path account st).2).1 = .ok files) :
    (Path U R path account st).1 = .ok (none, files) := by
  rcases hF : File U R path account st with ⟨r, st'⟩
  rw [hF] at h hl
  simp only at h hl
  subst h
  rcases hL : Files U R path account st' with ⟨r', st''⟩
  rw [hL] at hl
  simp only at hl
  subst hl
  simp [Path, hF, hd, hL]

end onedrive

namespace drivers

theorem B_not_before_A :
    ¬ model.Before sortedAccount (videoFile "B.mp4") (videoFile "A.mp4") := by
  have h1 : ¬ sortedAccount.OrderDirection = "DESC" := by decide
  have h2 : sortedAccount.OrderBy = "name" := rfl
  have h3 : ¬ ((videoFile "B.mp4").Name ≤ (videoFile "A.mp4").Name) := by
    rw [String.le_iff_toList_le]; decide
  simp only [model.Before, model.KeyLE, h1, h2, if_false, if_true]
  exact h3

theorem A_not_after_C :
    ¬ model.Before sortedAccount (videoFile "C.mp4") (videoFile "A.mp4") := by
  have h1 : ¬ sortedAccount.OrderDirection = "DESC" := by decide
  have h2 : sortedAccount.OrderBy = "name" := rfl
  have h3 : ¬ ((videoFile "C.mp4").Name ≤ (videoFile "A.mp4").Name) := by
    rw [String.le_iff_toList_le]; decide
  simp only [model.Before, model.KeyLE, h1, h2, if_false, if_true]
  exact h3

/-- C13 as stated fails for Onedrive.  The account is configured to sort by
name and the root path resolves to a directory.  When the backend gives the
listing as `B.mp4`, `A.mp4`, `C.mp4`, `Onedrive.Path` returns it in exactly
this order, which is sorted by name neither ascending nor descending.  And
when the cache holds the listing in the order of the sizes (`B.mp4`,
`A.mp4`, `C.mp4`), `Onedrive.Path` returns the cached order without asking
the backend. -/
theorem Onedrive_Path_returns_backend_order :
    ((onedrive.Path utils.std shuffledRest "/" sortedAccount emptyOnedrive).1
        = .ok (none, [videoFile "B.mp4", videoFile "A.mp4", videoFile "C.mp4"]) ∧
      ¬ List.Sorted (model.Before sortedAccount)
          [videoFile "B.mp4", videoFile "A.mp4", videoFile "C.mp4"] ∧
      ¬ List.Sorted (fun a b => model.Before sortedAccount b a)
          [videoFile "B.mp4", videoFile "A.mp4", videoFile "C.mp4"]) ∧
    ((onedrive.Path utils.std okRest "/" sortedAccount sizeOrderedOnedrive).1
        = .ok (none, [sizedFile "B.mp4" 1, sizedFile "A.mp4" 2, sizedFile "C.mp4" 3]) ∧
      (onedrive.Path utils.std okRest "/" sortedAccount sizeOrderedOnedrive).2.hist = [] ∧
      ¬ List.Sorted (model.Before sortedAccount)
          [sizedFile "B.mp4" 1, sizedFile "A.mp4" 2, sizedFile "C.mp4" 3]) := by
  refine ⟨⟨?_, ?_, ?_⟩, ⟨rfl, rfl, ?_⟩⟩
  · rw [onedrive.one_Path_dir utils.std shuffledRest "/" sortedAccount emptyOnedrive
      { Id := "/", Name := "disk", Size := 0, Type_ := conf.FOLDER, Driver := "Onedrive",
        UpdatedAt := none, Thumbnail := "", Url := "" }
      [videoFile "B.mp4", videoFile "A.mp4", videoFile "C.mp4"]
      (by rw [onedrive.one_File_root utils.std shuffledRest "/" sortedAccount emptyOnedrive
            (by decide)]; rfl)
      rfl
      (by rw [onedrive.one_File_root utils.std shuffledRest "/" sortedAccount emptyOnedrive
            (by decide)]; rfl)]
  · intro h
    have := List.rel_of_sorted_cons h (videoFile "A.mp4") (by simp)
    exact B_not_before_A this
  · intro h
    have h' := (List.sorted_cons.mp h).2
    have := List.rel_of_sorted_cons h' (videoFile "C.mp4") (by simp)
    exact A_not_after_C this
  · intro h
    have := List.rel_of_sorted_cons h (sizedFile "A.mp4" 2) (by simp)
    exact B_not_before_A this

/-- C13, amended.  For a path that resolves to a file, `Path` of FTP and of
Onedrive returns that single entry and no listing.  For a path that resolves
to a directory whose listing `Files` then returns, `Path` returns no single
entry and, for FTP, that listing rearranged by `SortFiles`: a permutation of
it which, when `OrderBy` is "name", "size" or "updated_at", is sorted by that
field in the direction `OrderDirection`; for Onedrive, that listing in the
order in which `Files` returned it. -/
theorem Path_file_or_listing {ρ : Type} (U : utils.Funcs) (srv : ftp.Server)
    (R : onedrive.Rest ρ) (path : String) (account : model.Account)
    (fst : ftp.St) (ost : onedrive.St) (f : model.File) (files : List model.File) :
    (((ftp.File U srv path account fst).1 = .ok f → f.IsDir = false →
        (ftp.Path U srv path account fst).1 = .ok (some f, [])) ∧
      ((ftp.File U srv path account fst).1 = .ok f → f.IsDir = true →
        (ftp.Files U srv path account (ftp.File U srv path account fst).2).1 = .ok files →
        ∃ sorted, (ftp.Path U srv path account fst).1 = .ok (none, sorted) ∧
          sorted.Perm files ∧
          (account.OrderBy = "name" ∨ account.OrderBy = "size" ∨
              account.OrderBy = "updated_at" →
            List.Sorted (model.Before account) sorted))) ∧
    (((onedrive.File U R path account ost).1 = .ok f → f.IsDir = false →
        (onedrive.Path U R path account ost).1 = .ok (some f, [])) ∧
      ((onedrive.File U R path account ost).1 = .ok f → f.IsDir = true →
        (onedrive.Files U R path account (onedrive.File U R path account ost).2).1
          = .ok files →
        (onedrive.Path U R path account ost).1 = .ok (none, files))) := by
  refine ⟨⟨ftp.ftp_Path_file U srv path account fst f, ?_⟩,
    ⟨onedrive.one_Path_file U R path account ost f,
     onedrive.one_Path_dir U R path account ost f files⟩⟩
  intro h hd hl
  exact ⟨model.SortFiles files account,
    ftp.ftp_Path_dir U srv path account fst f files h hd hl,
    model.SortFiles_perm files account, model.SortFiles_sorted files account⟩

/-- Witness for C13: on the FTP server that lists `B.mp4`, `A.mp4`, `C.mp4`
the root path yields a listing sorted by name, and the path "/A.mp4" yields
the single entry. -/
theorem Path_file_or_listing_witness :
    (∃ sorted, (ftp.Path utils.std shuffledServer "/" sortedAccount emptyFtp).1
        = .ok (none, sorted) ∧
      sorted.Perm ([videoEntry "B.mp4", videoEntry "A.mp4", videoEntry "C.mp4"].map
        (ftp.toFile utils.std)) ∧
      (sortedAccount.OrderBy = "name" ∨ sortedAccount.OrderBy = "size" ∨
          sortedAccount.OrderBy = "updated_at" →
        List.Sorted (model.Before sortedAccount) sorted)) ∧
    (ftp.Path utils.std shuffledServer "/A.mp4" sortedAccount emptyFtp).1
      = .ok (some (ftp.toFile utils.std (videoEntry "A.mp4")), []) :=
  ⟨(Path_file_or_listing utils.std shuffledServer shuffledRest "/" sortedAccount emptyFtp
      emptyOnedrive
      { Id := "/", Name := "disk", Size := 0, Type_ := conf.FOLDER, Driver := "FTP",
        UpdatedAt := none, Thumbnail := "", Url := "" }
      ([videoEntry "B.mp4", videoEntry "A.mp4", videoEntry "C.mp4"].map
        (ftp.toFile utils.std))).1.2
      (by rw [ftp.ftp_File_root utils.std shuffledServer "/" sortedAccount emptyFtp
            (by decide)]; rfl)
      rfl
      (by rw [ftp.ftp_File_root utils.std shuffledServer "/" sortedAccount emptyFtp
            (by decide)]; rfl),
   (Path_file_or_listing utils.std shuffledServer shuffledRest "/A.mp4" sortedAccount
      emptyFtp emptyOnedrive (ftp.toFile utils.std (videoEntry "A.mp4")) []).1.1
      rfl (by decide)⟩

end drivers
